import Mathlib

/-! GoIO SDK, Linux back end of `GSkipBaseDevice`.

A shallow embedding of `GoIO_cpp/Linux/GSkipBaseDevice_Linux.cpp`:

* `LSkipPacketCircularBuffer` (constructor, `SetQueueAccessMutex`, `AddRec`,
  `RetrieveRec`, `NumRecsAvailable`, `Clear`),
* `LSkipMgr` (constructor, `Open`, `Close`, `gListenForResponse`),
* the `GSkipBaseDevice::OS...` entry points built on them.

C++ `int` fields are `Int`; every index stays below the capacity, so no
arithmetic here can leave the range of a 32 bit `int`.  Pointers that may be
`NULL` are modelled by a two-valued type or by `Option`.  Services that live
outside this translation unit (the `GThread` mutex, `open`/`read`/`write`/`poll`,
`LockDevice`/`IsOKToUse`) appear as explicit outcomes supplied by the caller of
the model.
-/

set_option autoImplicit false

namespace GoIO

/-! ## Platform services and types declared outside the translation unit -/

/-- Modelled from the spec: `GSkipPacket` is declared in a header that is not
part of the sources; the spec (section 3) describes it as a fixed-width record of
8 bytes that is copied by value.  The bytes are kept as a list of naturals. -/
structure GSkipPacket where
  bytes : List Nat
deriving DecidableEq, Repr, Inhabited

/-- Modelled from the spec: the result codes `kResponse_OK` and `kResponse_Error`
are declared outside the sources; only the fact that they differ is used. -/
inductive Response where
  | kResponse_OK
  | kResponse_Error
deriving DecidableEq, Repr

export Response (kResponse_OK kResponse_Error)

/-- An `OSMutex` value is a pointer: `NULL`, or the handle of the mutex object
that `LSkipMgr::Open` created. -/
inductive OSMutex where
  | null
  | handle
deriving DecidableEq, Repr

/-- Modelled from the spec: the mutex object behind an `OSMutex` handle.  The
`GThread` mutex primitives are a platform service (spec section 1); the spec
(section 4.1) says that every buffer operation acquires the mutex.  The object
records how many times the calling thread currently holds it (`depth`) and the
largest value `depth` has reached (`peak`). -/
structure OSMutexObj where
  depth : Nat
  peak : Nat
deriving DecidableEq, Repr

/-- Modelled from the spec: `GThread::OSLockMutex`.  Acquisition succeeds and the
calling thread holds the mutex once more. -/
def OSLockMutex (m : OSMutexObj) : Bool × OSMutexObj :=
  (true, { depth := m.depth + 1, peak := max m.peak (m.depth + 1) })

/-- Modelled from the spec: `GThread::OSUnlockMutex`.  The calling thread gives
up one hold of the mutex. -/
def OSUnlockMutex (m : OSMutexObj) : OSMutexObj :=
  { m with depth := m.depth - 1 }

/-! ## `LSkipPacketCircularBuffer` -/

/-- The fields of `struct LSkipPacketCircularBuffer`.  `m_pRecs` is the array
allocated by the constructor. -/
structure LSkipPacketCircularBuffer where
  m_pQueueAccessMutex : OSMutex
  m_pRecs : List GSkipPacket
  m_nFirstRec : Int
  m_nNextRec : Int
  m_nRecsAllocated : Int
deriving DecidableEq, Repr

namespace LSkipPacketCircularBuffer

/-- Constructor `LSkipPacketCircularBuffer(int numRecs)`.  The cells of the new
array hold unspecified packets; the model fills them with the default packet. -/
def new (numRecs : Int) : LSkipPacketCircularBuffer :=
  { m_pRecs := List.replicate numRecs.toNat default
    m_pQueueAccessMutex := OSMutex.null
    m_nRecsAllocated := numRecs
    m_nFirstRec := 0
    m_nNextRec := 0 }

/-- Method `SetQueueAccessMutex`. -/
def SetQueueAccessMutex (b : LSkipPacketCircularBuffer) (pQueueAccessMutex : OSMutex) :
    LSkipPacketCircularBuffer :=
  { b with m_pQueueAccessMutex := pQueueAccessMutex }

/-- Method `NumRecsAvailable`.  The buffer is not modified; the result is the
returned count together with the mutex object after the call. -/
def NumRecsAvailable (b : LSkipPacketCircularBuffer) (mtx : OSMutexObj) : Int × OSMutexObj :=
  if b.m_pQueueAccessMutex ≠ OSMutex.null then
    match OSLockMutex mtx with
    | (true, mtx1) =>
      let numRecs : Int := b.m_nNextRec - b.m_nFirstRec
      let numRecs : Int := if numRecs < 0 then numRecs + b.m_nRecsAllocated else numRecs
      (numRecs, OSUnlockMutex mtx1)
    | (false, mtx1) => (0, mtx1)
  else (0, mtx)

/-- Method `AddRec`.  The trace message written when the buffer overflows has
no effect on the state and is left out. -/
def AddRec (b : LSkipPacketCircularBuffer) (pRec : GSkipPacket) (mtx : OSMutexObj) :
    LSkipPacketCircularBuffer × OSMutexObj :=
  if b.m_pQueueAccessMutex ≠ OSMutex.null then
    match OSLockMutex mtx with
    | (true, mtx1) =>
      let avail := NumRecsAvailable b mtx1
      let b1 : LSkipPacketCircularBuffer :=
        if avail.1 = b.m_nRecsAllocated - 1 then
          let first : Int := b.m_nFirstRec + 1
          { b with m_nFirstRec := if first = b.m_nRecsAllocated then 0 else first }
        else b
      let b2 := { b1 with m_pRecs := b1.m_pRecs.set b1.m_nNextRec.toNat pRec }
      let next : Int := b2.m_nNextRec + 1
      ({ b2 with m_nNextRec := if next = b2.m_nRecsAllocated then 0 else next },
        OSUnlockMutex avail.2)
    | (false, mtx1) => (b, mtx1)
  else (b, mtx)

/-- Method `RetrieveRec`.  The first component is `bRecRetrieved`; the second is
the packet stored through `pRec`, present exactly when a record was retrieved. -/
def RetrieveRec (b : LSkipPacketCircularBuffer) (mtx : OSMutexObj) :
    Bool × Option GSkipPacket × LSkipPacketCircularBuffer × OSMutexObj :=
  if b.m_pQueueAccessMutex ≠ OSMutex.null then
    match OSLockMutex mtx with
    | (true, mtx1) =>
      let avail := NumRecsAvailable b mtx1
      if avail.1 > 0 then
        let rec_ := b.m_pRecs.getD b.m_nFirstRec.toNat default
        let first : Int := b.m_nFirstRec + 1
        (true, some rec_,
          { b with m_nFirstRec := if first = b.m_nRecsAllocated then 0 else first },
          OSUnlockMutex avail.2)
      else (false, none, b, OSUnlockMutex avail.2)
    | (false, mtx1) => (false, none, b, mtx1)
  else (false, none, b, mtx)

/-- Method `Clear`. -/
def Clear (b : LSkipPacketCircularBuffer) (mtx : OSMutexObj) :
    LSkipPacketCircularBuffer × OSMutexObj :=
  if b.m_pQueueAccessMutex ≠ OSMutex.null then
    match OSLockMutex mtx with
    | (true, mtx1) => ({ b with m_nFirstRec := 0, m_nNextRec := 0 }, OSUnlockMutex mtx1)
    | (false, mtx1) => (b, mtx1)
  else (b, mtx)

end LSkipPacketCircularBuffer

/-! ## `LSkipMgr` -/

/-- Modelled from the spec: a `GThread` object; `GThread` is declared outside the
sources.  The model keeps only whether `OSStartThread` succeeded. -/
structure GThread where
  started : Bool
deriving DecidableEq, Repr

/-- The fields of `struct LSkipMgr`.  `mutexObj` is the object that
`m_pQueueAccessMutex` points to while that pointer is not `NULL`.  The two
buffers are allocated by the constructor and freed only by the destructor, so
the pointers `m_pMesBuf` and `m_pCmdBuf` are never `NULL` while the manager
lives and the model stores the buffers themselves. -/
structure LSkipMgr where
  m_pQueueAccessMutex : OSMutex
  mutexObj : OSMutexObj
  m_hDeviceID : Int
  m_pListeningThread : Option GThread
  m_pMesBuf : LSkipPacketCircularBuffer
  m_pCmdBuf : LSkipPacketCircularBuffer
  m_lastNumMeasurementsInPacket : Nat
deriving DecidableEq, Repr

/-- What the platform calls made by `LSkipMgr::Open` return: the mutex from
`GThread::OSCreateMutex`, the descriptor from `open(filename, O_RDWR|O_EXCL)`,
whether `new GThread` gave an object and what `OSStartThread` returned. -/
structure OpenOutcome where
  OSCreateMutex : OSMutex
  fd : Int
  threadAllocated : Bool
  OSStartThread : Bool
deriving DecidableEq, Repr

/-- Constants of the packet layout that are declared outside the sources: the
mask `SKIP_MASK_INPUT_PACKET_TYPE` and the byte offset of the field
`nMeasurementsInPacket` inside `GSkipMeasurementPacket`. -/
structure PacketLayout where
  SKIP_MASK_INPUT_PACKET_TYPE : Nat
  nMeasurementsInPacketOffset : Nat
deriving DecidableEq, Repr

/-- Field `nMeasurementsInPacket` (an `unsigned char`) of a packet viewed as a
`GSkipMeasurementPacket`. -/
def nMeasurementsInPacket (L : PacketLayout) (p : GSkipPacket) : Nat :=
  p.bytes.getD L.nMeasurementsInPacketOffset 0 % 256

/-- One result of `read(fd, &buf, sizeof(buf))` in the receiver: the returned
byte count and the contents of the 8 byte array `buf` after the call. -/
structure ReadResult where
  nNumberOfBytesRead : Int
  buf : GSkipPacket
deriving DecidableEq, Repr

namespace LSkipMgr

/-- Constructor `LSkipMgr()`. -/
def new : LSkipMgr :=
  { m_pQueueAccessMutex := OSMutex.null
    mutexObj := { depth := 0, peak := 0 }
    m_pListeningThread := none
    m_hDeviceID := -1
    m_lastNumMeasurementsInPacket := 0
    m_pMesBuf := LSkipPacketCircularBuffer.new 2000
    m_pCmdBuf := LSkipPacketCircularBuffer.new 2000 }

/-- Method `Open`.  The loop that empties the input queue of the freshly opened
descriptor only counts bytes for a message; it does not touch the manager and is
left out. -/
def Open (s : LSkipMgr) (o : OpenOutcome) : Response × LSkipMgr :=
  let s1 : LSkipMgr :=
    { s with m_pQueueAccessMutex := o.OSCreateMutex, mutexObj := { depth := 0, peak := 0 } }
  if s1.m_pQueueAccessMutex ≠ OSMutex.null then
    let s2 : LSkipMgr := { s1 with m_hDeviceID := o.fd }
    let nResult : Response := if s2.m_hDeviceID ≠ -1 then kResponse_OK else kResponse_Error
    if nResult = kResponse_OK then
      let s3 : LSkipMgr :=
        { s2 with
          m_pMesBuf := s2.m_pMesBuf.SetQueueAccessMutex s2.m_pQueueAccessMutex
          m_pCmdBuf := s2.m_pCmdBuf.SetQueueAccessMutex s2.m_pQueueAccessMutex }
      if ¬ o.threadAllocated then
        (kResponse_Error, { s3 with m_pListeningThread := none })
      else if ¬ o.OSStartThread then
        (kResponse_Error, { s3 with m_pListeningThread := some { started := false } })
      else
        (kResponse_OK, { s3 with m_pListeningThread := some { started := true } })
    else (nResult, s2)
  else (kResponse_Error, s1)

/-- Method `Close`. -/
def Close (s : LSkipMgr) : Response × LSkipMgr :=
  let s1 : LSkipMgr := { s with m_pListeningThread := none }
  let s2 : LSkipMgr :=
    { s1 with
      m_pMesBuf := s1.m_pMesBuf.SetQueueAccessMutex OSMutex.null
      m_pCmdBuf := s1.m_pCmdBuf.SetQueueAccessMutex OSMutex.null }
  let s3 : LSkipMgr := { s2 with m_pQueueAccessMutex := OSMutex.null }
  (kResponse_OK, { s3 with m_hDeviceID := -1 })

/-- The variables of one run of `gListenForResponse`: the manager, the function's
`static int err_count`, the local `count`, and the read results the transport
will still deliver (`poll` reports the descriptor readable exactly while this
list is not empty). -/
structure ListenState where
  mgr : LSkipMgr
  err_count : Int
  count : Int
  input : List ReadResult
deriving DecidableEq, Repr

/-- Body of the `while` loop of `gListenForResponse` for one `read` result. -/
def listenBody (L : PacketLayout) (r : ReadResult) (s : ListenState) : ListenState :=
  let s1 : ListenState :=
    if r.nNumberOfBytesRead = 8 then
      let s2 : ListenState :=
        if r.buf.bytes.getD 0 0 &&& L.SKIP_MASK_INPUT_PACKET_TYPE ≠ 0 then
          let a := s.mgr.m_pCmdBuf.AddRec r.buf s.mgr.mutexObj
          { s with mgr := { s.mgr with m_pCmdBuf := a.1, mutexObj := a.2 } }
        else
          let a := s.mgr.m_pMesBuf.AddRec r.buf s.mgr.mutexObj
          { s with
            mgr := { s.mgr with
              m_pMesBuf := a.1
              mutexObj := a.2
              m_lastNumMeasurementsInPacket := nMeasurementsInPacket L r.buf } }
      { s2 with err_count := 0 }
    else
      { s with err_count := s.err_count + 1 }
  { s1 with count := s1.count + 1 }

/-- The `while ((poll(fds, 1, timeout_msecs)>0) && (count < 20))` loop of
`gListenForResponse`.  The first argument bounds the number of iterations of the
model; `count` starts at 0 and grows by one per iteration, so 20 is enough. -/
def listenLoop (L : PacketLayout) : Nat → ListenState → ListenState
  | 0, s => s
  | fuel + 1, s =>
    match s.input with
    | [] => s
    | r :: rest =>
      if s.count < 20 then listenLoop L fuel (listenBody L r { s with input := rest })
      else s

/-- Static method `gListenForResponse(void *pParam)`; `pParam` is `NULL` or the
manager. -/
def gListenForResponse (L : PacketLayout) (pParam : Option LSkipMgr) (err_count : Int)
    (input : List ReadResult) : Response × Option ListenState :=
  match pParam with
  | some pMgr =>
    (kResponse_OK,
      some (listenLoop L 20 { mgr := pMgr, err_count := err_count, count := 0, input := input }))
  | none => (kResponse_OK, none)

end LSkipMgr

/-! ## `GSkipBaseDevice`, platform specific routines -/

/-- The part of a `GSkipBaseDevice` these routines use: `m_pOSData`, and the
number of holds of the device lock taken by `LockDevice` and not yet returned by
`UnlockDevice` (the locking itself belongs to the base class and is outside the
sources). -/
structure GSkipBaseDevice where
  m_pOSData : Option LSkipMgr
  lockCount : Nat
deriving DecidableEq, Repr

/-- What the base class answers to `LockDevice(1)` and to `IsOKToUse()`. -/
structure GuardOutcome where
  LockDevice : Bool
  IsOKToUse : Bool
deriving DecidableEq, Repr

namespace GSkipBaseDevice

/-- The condition `LockDevice(1) && IsOKToUse()`: `IsOKToUse` is asked only
after the lock was taken, and a lock that was taken is counted. -/
def lockAndCheck (d : GSkipBaseDevice) (g : GuardOutcome) : Bool × GSkipBaseDevice :=
  if g.LockDevice then (g.IsOKToUse, { d with lockCount := d.lockCount + 1 })
  else (false, d)

/-- Base class method `UnlockDevice()`. -/
def UnlockDevice (d : GSkipBaseDevice) : GSkipBaseDevice :=
  { d with lockCount := d.lockCount - 1 }

/-- Method `OSInitialize`. -/
def OSInitialize (d : GSkipBaseDevice) : Bool × GSkipBaseDevice :=
  (true, { d with m_pOSData := some LSkipMgr.new })

/-- Method `OSOpen`. -/
def OSOpen (d : GSkipBaseDevice) (g : GuardOutcome) (o : OpenOutcome) :
    Response × GSkipBaseDevice :=
  match d.m_pOSData with
  | some mgr =>
    let c := d.lockAndCheck g
    if c.1 then
      let r := mgr.Open o
      (kResponse_OK, UnlockDevice { c.2 with m_pOSData := some r.2 })
    else (kResponse_Error, c.2)
  | none => (kResponse_Error, d)

/-- Method `OSClose`. -/
def OSClose (d : GSkipBaseDevice) (g : GuardOutcome) : Response × GSkipBaseDevice :=
  match d.m_pOSData with
  | some mgr =>
    let c := d.lockAndCheck g
    if c.1 then
      let r := mgr.Close
      (kResponse_OK, UnlockDevice { c.2 with m_pOSData := some r.2 })
    else (kResponse_Error, c.2)
  | none => (kResponse_Error, d)

/-- The variables of the read loops: the ring buffer being read and its mutex
object, the destination memory (one packet per slot, slot `i` at byte offset
`i * sizeof(GSkipPacket)` of `pBuffer`) and `nPacketsRead`. -/
structure ReadLoopState where
  buf : LSkipPacketCircularBuffer
  mtx : OSMutexObj
  pBuffer : Nat → GSkipPacket
  nPacketsRead : Int

/-- The loop `while (nPacketsRead < nPacketsDesired)` shared, word for word, by
`OSReadMeasurementPackets` and `OSReadCmdRespPackets`.  `pBuf` always points at
slot `nPacketsRead`.  The first argument bounds the number of iterations of the
model. -/
def readLoop (nPacketsDesired : Int) : Nat → ReadLoopState → ReadLoopState
  | 0, s => s
  | fuel + 1, s =>
    if s.nPacketsRead < nPacketsDesired then
      match s.buf.RetrieveRec s.mtx with
      | (true, some p, b, m) =>
        readLoop nPacketsDesired fuel
          { buf := b, mtx := m
            pBuffer := Function.update s.pBuffer s.nPacketsRead.toNat p
            nPacketsRead := s.nPacketsRead + 1 }
      | (_, _, b, m) => { s with buf := b, mtx := m }
    else s

/-- What the two read routines hand back: the result code, the destination
memory, the value left in `*pIONumPackets`, and the device. -/
structure ReadOutcome where
  nResult : Response
  pBuffer : Nat → GSkipPacket
  pIONumPackets : Int
  dev : GSkipBaseDevice

/-- Method `OSReadMeasurementPackets`. -/
def OSReadMeasurementPackets (d : GSkipBaseDevice) (g : GuardOutcome)
    (pBuffer : Nat → GSkipPacket) (pIONumPackets : Int) (nBufferSizeInPackets : Int) :
    ReadOutcome :=
  match d.m_pOSData with
  | some pSkipMgr =>
    let nPacketsDesired : Int :=
      if pIONumPackets > nBufferSizeInPackets then nBufferSizeInPackets else pIONumPackets
    let c := d.lockAndCheck g
    if c.1 then
      let l := readLoop nPacketsDesired nPacketsDesired.toNat
        { buf := pSkipMgr.m_pMesBuf, mtx := pSkipMgr.mutexObj
          pBuffer := pBuffer, nPacketsRead := 0 }
      { nResult := kResponse_OK
        pBuffer := l.pBuffer
        pIONumPackets := l.nPacketsRead
        dev := UnlockDevice
          { c.2 with m_pOSData := some { pSkipMgr with m_pMesBuf := l.buf, mutexObj := l.mtx } } }
    else
      { nResult := kResponse_Error, pBuffer := pBuffer, pIONumPackets := 0, dev := c.2 }
  | none => { nResult := kResponse_Error, pBuffer := pBuffer, pIONumPackets := 0, dev := d }

/-- Method `OSReadCmdRespPackets`. -/
def OSReadCmdRespPackets (d : GSkipBaseDevice) (g : GuardOutcome)
    (pBuffer : Nat → GSkipPacket) (pIONumPackets : Int) (nBufferSizeInPackets : Int) :
    ReadOutcome :=
  match d.m_pOSData with
  | some pSkipMgr =>
    let nPacketsDesired : Int :=
      if pIONumPackets > nBufferSizeInPackets then nBufferSizeInPackets else pIONumPackets
    let c := d.lockAndCheck g
    if c.1 then
      let l := readLoop nPacketsDesired nPacketsDesired.toNat
        { buf := pSkipMgr.m_pCmdBuf, mtx := pSkipMgr.mutexObj
          pBuffer := pBuffer, nPacketsRead := 0 }
      { nResult := kResponse_OK
        pBuffer := l.pBuffer
        pIONumPackets := l.nPacketsRead
        dev := UnlockDevice
          { c.2 with m_pOSData := some { pSkipMgr with m_pCmdBuf := l.buf, mutexObj := l.mtx } } }
    else
      { nResult := kResponse_Error, pBuffer := pBuffer, pIONumPackets := 0, dev := c.2 }
  | none => { nResult := kResponse_Error, pBuffer := pBuffer, pIONumPackets := 0, dev := d }

/-- What `OSWriteCmdPackets` hands back: the result code, the device, and the
`write` call it made on the transport, if any: the descriptor, the packet and
the value `write` returned. -/
structure WriteOutcome where
  nResult : Response
  dev : GSkipBaseDevice
  written : Option (Int × GSkipPacket × Int)
deriving DecidableEq, Repr

/-- Method `OSWriteCmdPackets`.  `pBuffer` is the packet at the start of the
caller's buffer and `writeResult` is what `write(m_hDeviceID, pkt, sizeof(*pkt))`
returns: the number of bytes written, or -1.  The routine reads neither its
argument `nNumPackets` nor the value returned by `write`. -/
def OSWriteCmdPackets (d : GSkipBaseDevice) (g : GuardOutcome) (pBuffer : GSkipPacket)
    (_nNumPackets : Int) (writeResult : Int) : WriteOutcome :=
  match d.m_pOSData with
  | some mgr =>
    let c := d.lockAndCheck g
    if c.1 then
      { nResult := kResponse_OK
        dev := UnlockDevice c.2
        written := some (mgr.m_hDeviceID, pBuffer, writeResult) }
    else { nResult := kResponse_Error, dev := c.2, written := none }
  | none => { nResult := kResponse_Error, dev := d, written := none }

/-- Method `OSMeasurementPacketsAvailable`: the returned count, the value left
in `*pNumMeasurementsInLastPacket`, and the device. -/
def OSMeasurementPacketsAvailable (d : GSkipBaseDevice) (g : GuardOutcome) :
    Int × Nat × GSkipBaseDevice :=
  match d.m_pOSData with
  | some mgr =>
    let c := d.lockAndCheck g
    if c.1 then
      let n := mgr.m_pMesBuf.NumRecsAvailable mgr.mutexObj
      (n.1, mgr.m_lastNumMeasurementsInPacket,
        UnlockDevice { c.2 with m_pOSData := some { mgr with mutexObj := n.2 } })
    else (0, 1, c.2)
  | none => (0, 1, d)

/-- Method `OSCmdRespPacketsAvailable`. -/
def OSCmdRespPacketsAvailable (d : GSkipBaseDevice) (g : GuardOutcome) :
    Int × GSkipBaseDevice :=
  match d.m_pOSData with
  | some mgr =>
    let c := d.lockAndCheck g
    if c.1 then
      let n := mgr.m_pCmdBuf.NumRecsAvailable mgr.mutexObj
      (n.1, UnlockDevice { c.2 with m_pOSData := some { mgr with mutexObj := n.2 } })
    else (0, c.2)
  | none => (0, d)

/-- Method `OSClearMeasurementPacketQueue`. -/
def OSClearMeasurementPacketQueue (d : GSkipBaseDevice) (g : GuardOutcome) :
    Response × GSkipBaseDevice :=
  match d.m_pOSData with
  | some mgr =>
    let c := d.lockAndCheck g
    if c.1 then
      let r := mgr.m_pMesBuf.Clear mgr.mutexObj
      (kResponse_OK,
        UnlockDevice
          { c.2 with
            m_pOSData := some
              { mgr with m_pMesBuf := r.1, mutexObj := r.2, m_lastNumMeasurementsInPacket := 0 } })
    else (kResponse_Error, c.2)
  | none => (kResponse_Error, d)

/-- Method `OSClearCmdRespPacketQueue`. -/
def OSClearCmdRespPacketQueue (d : GSkipBaseDevice) (g : GuardOutcome) :
    Response × GSkipBaseDevice :=
  match d.m_pOSData with
  | some mgr =>
    let c := d.lockAndCheck g
    if c.1 then
      let r := mgr.m_pCmdBuf.Clear mgr.mutexObj
      (kResponse_OK,
        UnlockDevice { c.2 with m_pOSData := some { mgr with m_pCmdBuf := r.1, mutexObj := r.2 } })
    else (kResponse_Error, c.2)
  | none => (kResponse_Error, d)

/-- Method `OSClearIO`; the two calls answer the guard separately. -/
def OSClearIO (d : GSkipBaseDevice) (g1 g2 : GuardOutcome) : Response × GSkipBaseDevice :=
  let r1 := d.OSClearMeasurementPacketQueue g1
  let r2 := r1.2.OSClearCmdRespPacketQueue g2
  (kResponse_OK, r2.2)

end GSkipBaseDevice

/-! ## Drivers: sequences of calls -/

namespace LSkipPacketCircularBuffer

/-- Call `AddRec` once for every packet of a list, in order. -/
def addAll (b : LSkipPacketCircularBuffer) (mtx : OSMutexObj) :
    List GSkipPacket → LSkipPacketCircularBuffer × OSMutexObj
  | [] => (b, mtx)
  | p :: ps => addAll (b.AddRec p mtx).1 (b.AddRec p mtx).2 ps

/-- Call `RetrieveRec` until it returns `false` and collect the packets it
stored, in order.  The first argument bounds the number of calls; the result is
`none` when the bound is reached before a call has returned `false`. -/
def drainLoop : Nat → LSkipPacketCircularBuffer → OSMutexObj →
    Option (List GSkipPacket × LSkipPacketCircularBuffer × OSMutexObj)
  | 0, _, _ => none
  | fuel + 1, b, mtx =>
    match b.RetrieveRec mtx with
    | (true, some p, b1, mtx1) =>
      match drainLoop fuel b1 mtx1 with
      | some r => some (p :: r.1, r.2)
      | none => none
    | (_, _, b1, mtx1) => some ([], b1, mtx1)

/-- Drain a buffer: `RetrieveRec` until it returns `false`, with one call per
allocated record as the bound. -/
def drain (b : LSkipPacketCircularBuffer) (mtx : OSMutexObj) :
    Option (List GSkipPacket × LSkipPacketCircularBuffer × OSMutexObj) :=
  drainLoop b.m_nRecsAllocated.toNat b mtx

/-- One call of a buffer method. -/
inductive Call where
  | AddRec (pRec : GSkipPacket)
  | RetrieveRec
  | NumRecsAvailable
  | Clear
deriving DecidableEq, Repr

/-- What a call hands back to its caller: nothing (`AddRec`, `Clear`), the
flag `bRecRetrieved` with the packet stored through `pRec`, or a count. -/
inductive Ret where
  | void
  | retrieved (bRecRetrieved : Bool) (pRec : Option GSkipPacket)
  | numRecs (n : Int)
deriving DecidableEq, Repr

/-- Perform one call on a buffer. -/
def call (c : Call) (b : LSkipPacketCircularBuffer) (mtx : OSMutexObj) :
    Ret × LSkipPacketCircularBuffer × OSMutexObj :=
  match c with
  | Call.AddRec pRec => (Ret.void, b.AddRec pRec mtx)
  | Call.RetrieveRec =>
    (Ret.retrieved (b.RetrieveRec mtx).1 (b.RetrieveRec mtx).2.1, (b.RetrieveRec mtx).2.2)
  | Call.NumRecsAvailable => (Ret.numRecs (b.NumRecsAvailable mtx).1, b, (b.NumRecsAvailable mtx).2)
  | Call.Clear => (Ret.void, b.Clear mtx)

/-- Perform a sequence of calls, collecting what each one hands back. -/
def run : List Call → LSkipPacketCircularBuffer → OSMutexObj →
    List Ret × LSkipPacketCircularBuffer × OSMutexObj
  | [], b, mtx => ([], b, mtx)
  | c :: cs, b, mtx =>
    ((call c b mtx).1 :: (run cs (call c b mtx).2.1 (call c b mtx).2.2).1,
      (run cs (call c b mtx).2.1 (call c b mtx).2.2).2)

/-- A freshly constructed buffer of `numRecs` records, bound to the queue
mutex as `LSkipMgr::Open` binds it. -/
def fresh (numRecs : Int) : LSkipPacketCircularBuffer :=
  (new numRecs).SetQueueAccessMutex OSMutex.handle

end LSkipPacketCircularBuffer

/-! ## The reference queue of the specification -/

namespace RefQueue

open LSkipPacketCircularBuffer (Call Ret)

/-- The reference queue's push, in the words of the specification: append,
dropping the head first when the queue already holds `C - 1` packets. -/
def push (C : Int) (q : List GSkipPacket) (p : GSkipPacket) : List GSkipPacket :=
  (if (q.length : Int) = C - 1 then q.tail else q) ++ [p]

/-- One call on the reference queue: pop hands back the oldest packet or
nothing, available is the length, clear empties the queue. -/
def call (C : Int) (c : Call) (q : List GSkipPacket) : Ret × List GSkipPacket :=
  match c with
  | Call.AddRec p => (Ret.void, push C q p)
  | Call.RetrieveRec =>
    match q with
    | [] => (Ret.retrieved false none, [])
    | p :: rest => (Ret.retrieved true (some p), rest)
  | Call.NumRecsAvailable => (Ret.numRecs q.length, q)
  | Call.Clear => (Ret.void, [])

/-- A sequence of calls on the reference queue. -/
def run (C : Int) : List Call → List GSkipPacket → List Ret × List GSkipPacket
  | [], q => ([], q)
  | c :: cs, q => ((call C c q).1 :: (run C cs (call C c q).2).1, (run C cs (call C c q).2).2)

end RefQueue

/-! ## Auxiliary notions used in the proofs -/

namespace LSkipPacketCircularBuffer

/-- Distance from index `i` forward to index `j` on a ring of `C` cells. -/
def ringDist (C i j : Int) : Int :=
  if j - i < 0 then j - i + C else j - i

/-- The index after `i` on a ring of `C` cells. -/
def wrapInc (C i : Int) : Int :=
  if i + 1 = C then 0 else i + 1

/-- The `k` cells of `recs` starting at index `i`, walking the ring forward. -/
def cellsFrom (recs : List GSkipPacket) (C : Int) : Nat → Int → List GSkipPacket
  | 0, _ => []
  | k + 1, i => recs.getD i.toNat default :: cellsFrom recs C k (wrapInc C i)

/-- The unread records of a buffer, oldest first. -/
def contents (b : LSkipPacketCircularBuffer) : List GSkipPacket :=
  cellsFrom b.m_pRecs b.m_nRecsAllocated
    (ringDist b.m_nRecsAllocated b.m_nFirstRec b.m_nNextRec).toNat b.m_nFirstRec

/-- The state invariant of a buffer of capacity `C`. -/
structure Inv (C : Int) (b : LSkipPacketCircularBuffer) : Prop where
  alloc : b.m_nRecsAllocated = C
  first_nonneg : 0 ≤ b.m_nFirstRec
  first_lt : b.m_nFirstRec < C
  next_nonneg : 0 ≤ b.m_nNextRec
  next_lt : b.m_nNextRec < C
  length_recs : b.m_pRecs.length = C.toNat

/-- The buffer has been given a mutex. -/
def Bound (b : LSkipPacketCircularBuffer) : Prop :=
  b.m_pQueueAccessMutex ≠ OSMutex.null

instance (b : LSkipPacketCircularBuffer) : Decidable (Bound b) := by
  unfold Bound; infer_instance

end LSkipPacketCircularBuffer

/-! ## Sessions and the events that act on them -/

namespace LSkipMgr

open LSkipPacketCircularBuffer (Inv Bound)

/-- The state of a manager between a successful `Open` and the next `Close`:
both ring buffers have their 2000 cells and valid indices, and both are bound
to the queue mutex. -/
def IsOpen (s : LSkipMgr) : Prop :=
  Inv 2000 s.m_pMesBuf ∧ Bound s.m_pMesBuf ∧ Inv 2000 s.m_pCmdBuf ∧ Bound s.m_pCmdBuf

/-- The receiver's test for a full packet of the command-response kind. -/
def isCmdRespRead (L : PacketLayout) (r : ReadResult) : Prop :=
  r.nNumberOfBytesRead = 8 ∧ r.buf.bytes.getD 0 0 &&& L.SKIP_MASK_INPUT_PACKET_TYPE ≠ 0

/-- The receiver's test for a full packet of the measurement kind. -/
def isMeasurementRead (L : PacketLayout) (r : ReadResult) : Prop :=
  r.nNumberOfBytesRead = 8 ∧ r.buf.bytes.getD 0 0 &&& L.SKIP_MASK_INPUT_PACKET_TYPE = 0

instance (L : PacketLayout) (r : ReadResult) : Decidable (isCmdRespRead L r) := by
  unfold isCmdRespRead; infer_instance

instance (L : PacketLayout) (r : ReadResult) : Decidable (isMeasurementRead L r) := by
  unfold isMeasurementRead; infer_instance

/-- The loop body of the receiver applied to each read result of a list, in
order. -/
def listenAll (L : PacketLayout) : List ReadResult → ListenState → ListenState
  | [], s => s
  | r :: rs, s => listenAll L rs (listenBody L r s)

end LSkipMgr

namespace GSkipBaseDevice

/-- The device is initialized and its session is open. -/
def IsOpen (d : GSkipBaseDevice) : Prop :=
  ∃ mgr, d.m_pOSData = some mgr ∧ mgr.IsOpen

/-- Something that happens to an open device: the receiver thread handles one
read result, or the caller reads measurement packets. -/
inductive Event where
  | received (r : ReadResult)
  | readMeasurement (g : GuardOutcome) (pIONumPackets : Int) (nBufferSizeInPackets : Int)
deriving DecidableEq, Repr

/-- The receiver thread handles one read result on the device's manager. -/
def receive (L : PacketLayout) (r : ReadResult) (d : GSkipBaseDevice) : GSkipBaseDevice :=
  match d.m_pOSData with
  | some mgr =>
    { d with
      m_pOSData := some
        (LSkipMgr.listenBody L r { mgr := mgr, err_count := 0, count := 0, input := [] }).mgr }
  | none => d

/-- The manager's `m_lastNumMeasurementsInPacket`, when the device has a
manager. -/
def lastNumMeasurementsInPacket (d : GSkipBaseDevice) : Option Nat :=
  d.m_pOSData.map (fun mgr => mgr.m_lastNumMeasurementsInPacket)

/-- The device after one event. -/
def applyEvent (L : PacketLayout) (e : Event) (d : GSkipBaseDevice) : GSkipBaseDevice :=
  match e with
  | Event.received r => receive L r d
  | Event.readMeasurement g n b => (d.OSReadMeasurementPackets g (fun _ => default) n b).dev

/-- The device after a sequence of events. -/
def applyEvents (L : PacketLayout) : List Event → GSkipBaseDevice → GSkipBaseDevice
  | [], d => d
  | e :: es, d => applyEvents L es (applyEvent L e d)

/-- The event is not the reception of a full measurement packet. -/
def Event.notMeasurement (L : PacketLayout) : Event → Prop
  | Event.received r => ¬ LSkipMgr.isMeasurementRead L r
  | Event.readMeasurement _ _ _ => True

end GSkipBaseDevice

/-! ## Concrete values for examples -/

/-- A packet layout for examples: type bit `0x40` in byte 0, sample count in
byte 0. -/
def exampleLayout : PacketLayout :=
  { SKIP_MASK_INPUT_PACKET_TYPE := 0x40, nMeasurementsInPacketOffset := 0 }

/-- Every platform call of `Open` succeeds and the descriptor is 3. -/
def exampleOpen : OpenOutcome :=
  { OSCreateMutex := OSMutex.handle, fd := 3, threadAllocated := true, OSStartThread := true }

/-- A full read of a measurement packet holding two samples. -/
def measurementRead : ReadResult :=
  { nNumberOfBytesRead := 8, buf := ⟨[2, 7, 16, 1, 17, 1, 0, 0]⟩ }

/-- A full read of a command-response packet. -/
def cmdRespRead : ReadResult :=
  { nNumberOfBytesRead := 8, buf := ⟨[0x5A, 0, 0, 0, 0, 0, 0, 0]⟩ }

/-- A read that delivered only three bytes. -/
def shortRead : ReadResult :=
  { nNumberOfBytesRead := 3, buf := ⟨[2, 7, 16, 0, 0, 0, 0, 0]⟩ }

/-- A freshly constructed manager after a successful `Open`. -/
def exampleSession : LSkipMgr :=
  (LSkipMgr.new.Open exampleOpen).2

/-- An initialized device after a successful `OSOpen`. -/
def exampleDevice : GSkipBaseDevice :=
  ((GSkipBaseDevice.OSInitialize { m_pOSData := none, lockCount := 0 }).2.OSOpen
    { LockDevice := true, IsOKToUse := true } exampleOpen).2

/-- The example session after the receiver has handled two measurement
packets and one command-response packet. -/
def busySession : LSkipMgr :=
  (LSkipMgr.listenAll exampleLayout [measurementRead, cmdRespRead, measurementRead]
    { mgr := exampleSession, err_count := 0, count := 0, input := [] }).mgr

/-- A device whose manager is the busy example session. -/
def busyDevice : GSkipBaseDevice :=
  { m_pOSData := some busySession, lockCount := 0 }

/-! ## Basic facts about the buffer methods -/

namespace LSkipPacketCircularBuffer

theorem NumRecsAvailable_fst (b : LSkipPacketCircularBuffer) (mtx : OSMutexObj) (hb : Bound b) :
    (b.NumRecsAvailable mtx).1 = ringDist b.m_nRecsAllocated b.m_nFirstRec b.m_nNextRec := by
  unfold Bound at hb
  simp [NumRecsAvailable, OSLockMutex, ringDist, hb]

theorem AddRec_fst (b : LSkipPacketCircularBuffer) (p : GSkipPacket) (mtx : OSMutexObj)
    (hb : Bound b) :
    (b.AddRec p mtx).1 =
      { m_pQueueAccessMutex := b.m_pQueueAccessMutex
        m_pRecs := b.m_pRecs.set b.m_nNextRec.toNat p
        m_nFirstRec :=
          if ringDist b.m_nRecsAllocated b.m_nFirstRec b.m_nNextRec = b.m_nRecsAllocated - 1
          then wrapInc b.m_nRecsAllocated b.m_nFirstRec else b.m_nFirstRec
        m_nNextRec := wrapInc b.m_nRecsAllocated b.m_nNextRec
        m_nRecsAllocated := b.m_nRecsAllocated } := by
  have h := NumRecsAvailable_fst b (OSLockMutex mtx).2 hb
  unfold Bound at hb
  simp only [AddRec, hb, OSLockMutex, ne_eq, not_false_eq_true, if_true] at h ⊢
  simp only [h, wrapInc]
  split <;> rfl

theorem RetrieveRec_eq (b : LSkipPacketCircularBuffer) (mtx : OSMutexObj) (hb : Bound b) :
    ((b.RetrieveRec mtx).1, (b.RetrieveRec mtx).2.1, (b.RetrieveRec mtx).2.2.1) =
      if 0 < ringDist b.m_nRecsAllocated b.m_nFirstRec b.m_nNextRec then
        (true, some (b.m_pRecs.getD b.m_nFirstRec.toNat default),
          { b with m_nFirstRec := wrapInc b.m_nRecsAllocated b.m_nFirstRec })
      else (false, none, b) := by
  have h := NumRecsAvailable_fst b (OSLockMutex mtx).2 hb
  unfold Bound at hb
  simp only [RetrieveRec, hb, OSLockMutex, ne_eq, not_false_eq_true, if_true] at h ⊢
  simp only [h, wrapInc, gt_iff_lt]
  split <;> rfl

theorem Clear_fst (b : LSkipPacketCircularBuffer) (mtx : OSMutexObj) (hb : Bound b) :
    (b.Clear mtx).1 = { b with m_nFirstRec := 0, m_nNextRec := 0 } := by
  unfold Bound at hb
  simp [Clear, OSLockMutex, hb]


/-! ### Index arithmetic on the ring -/

theorem wrapInc_nonneg {C i : Int} (h0 : 0 ≤ i) : 0 ≤ wrapInc C i := by
  unfold wrapInc; split <;> omega

theorem wrapInc_lt {C i : Int} (hi : i < C) (hC : 1 ≤ C) : wrapInc C i < C := by
  unfold wrapInc; split <;> omega

theorem ringDist_wrapInc_left {C i j : Int} (h1 : 0 ≤ j) (hj : j < C)
    (hd : 0 < ringDist C i j) : ringDist C (wrapInc C i) j = ringDist C i j - 1 := by
  unfold ringDist wrapInc at *
  split_ifs at hd ⊢ <;> omega

theorem ringDist_wrapInc_right {C i j : Int} (h0 : 0 ≤ i) (hi : i < C) (h1 : 0 ≤ j)
    (hd : ringDist C i j ≠ C - 1) : ringDist C i (wrapInc C j) = ringDist C i j + 1 := by
  unfold ringDist wrapInc at *
  split_ifs at hd ⊢ <;> omega

theorem Inv.ringDist_nonneg {C : Int} {b : LSkipPacketCircularBuffer} (h : Inv C b) :
    0 ≤ ringDist C b.m_nFirstRec b.m_nNextRec := by
  obtain ⟨_, h1, h2, h3, h4, _⟩ := h
  unfold ringDist; split <;> omega

theorem Inv.ringDist_le {C : Int} {b : LSkipPacketCircularBuffer} (h : Inv C b) :
    ringDist C b.m_nFirstRec b.m_nNextRec ≤ C - 1 := by
  obtain ⟨_, h1, h2, h3, h4, _⟩ := h
  unfold ringDist; split <;> omega

theorem Inv.one_le {C : Int} {b : LSkipPacketCircularBuffer} (h : Inv C b) : 1 ≤ C := by
  obtain ⟨_, h1, h2, _, _, _⟩ := h
  omega

/-! ### The invariant is kept by every method -/

theorem Inv_fresh {C : Int} (hC : 1 ≤ C) : Inv C (fresh C) := by
  refine ⟨rfl, ?_, ?_, ?_, ?_, ?_⟩ <;> simp [fresh, new, SetQueueAccessMutex] <;> omega

theorem Bound_fresh (C : Int) : Bound (fresh C) := by
  simp [Bound, fresh, new, SetQueueAccessMutex]

theorem Inv_AddRec {C : Int} {b : LSkipPacketCircularBuffer} (h : Inv C b)
    (p : GSkipPacket) (mtx : OSMutexObj) : Inv C (b.AddRec p mtx).1 := by
  by_cases hb : Bound b
  · rw [AddRec_fst b p mtx hb]
    have hC := h.one_le
    obtain ⟨ha, h1, h2, h3, h4, h5⟩ := h
    subst ha
    refine ⟨rfl, ?_, ?_, wrapInc_nonneg h3, wrapInc_lt h4 hC, by simpa using h5⟩
    · dsimp only; split
      · exact wrapInc_nonneg h1
      · exact h1
    · dsimp only; split
      · exact wrapInc_lt h2 hC
      · exact h2
  · have : (b.AddRec p mtx).1 = b := by
      unfold Bound at hb
      simp only [ne_eq, not_not] at hb
      simp [AddRec, hb]
    rw [this]; exact h

theorem Bound_AddRec {b : LSkipPacketCircularBuffer} (hb : Bound b)
    (p : GSkipPacket) (mtx : OSMutexObj) : Bound (b.AddRec p mtx).1 := by
  rw [AddRec_fst b p mtx hb]; exact hb

theorem RetrieveRec_buf (b : LSkipPacketCircularBuffer) (mtx : OSMutexObj) (hb : Bound b) :
    (b.RetrieveRec mtx).2.2.1 =
      if 0 < ringDist b.m_nRecsAllocated b.m_nFirstRec b.m_nNextRec then
        { b with m_nFirstRec := wrapInc b.m_nRecsAllocated b.m_nFirstRec }
      else b := by
  have h := congrArg (fun t => t.2.2) (RetrieveRec_eq b mtx hb)
  simp only at h
  rw [h]; split <;> rfl

theorem RetrieveRec_flag (b : LSkipPacketCircularBuffer) (mtx : OSMutexObj) (hb : Bound b) :
    (b.RetrieveRec mtx).1 =
      decide (0 < ringDist b.m_nRecsAllocated b.m_nFirstRec b.m_nNextRec) := by
  have h := congrArg (fun t => t.1) (RetrieveRec_eq b mtx hb)
  simp only at h
  rw [h]; split <;> simp [*]

theorem RetrieveRec_rec (b : LSkipPacketCircularBuffer) (mtx : OSMutexObj) (hb : Bound b) :
    (b.RetrieveRec mtx).2.1 =
      if 0 < ringDist b.m_nRecsAllocated b.m_nFirstRec b.m_nNextRec then
        some (b.m_pRecs.getD b.m_nFirstRec.toNat default)
      else none := by
  have h := congrArg (fun t => t.2.1) (RetrieveRec_eq b mtx hb)
  simp only at h
  rw [h]; split <;> rfl

theorem Inv_RetrieveRec {C : Int} {b : LSkipPacketCircularBuffer} (h : Inv C b)
    (mtx : OSMutexObj) : Inv C (b.RetrieveRec mtx).2.2.1 := by
  by_cases hb : Bound b
  · rw [RetrieveRec_buf b mtx hb]
    have hC := h.one_le
    split
    · obtain ⟨ha, h1, h2, h3, h4, h5⟩ := h
      subst ha
      exact ⟨rfl, wrapInc_nonneg h1, wrapInc_lt h2 hC, h3, h4, h5⟩
    · exact h
  · have : (b.RetrieveRec mtx).2.2.1 = b := by
      unfold Bound at hb
      simp only [ne_eq, not_not] at hb
      simp [RetrieveRec, hb]
    rw [this]; exact h

theorem Bound_RetrieveRec {b : LSkipPacketCircularBuffer} (hb : Bound b)
    (mtx : OSMutexObj) : Bound (b.RetrieveRec mtx).2.2.1 := by
  rw [RetrieveRec_buf b mtx hb]; split <;> exact hb

theorem Inv_Clear {C : Int} {b : LSkipPacketCircularBuffer} (h : Inv C b)
    (mtx : OSMutexObj) : Inv C (b.Clear mtx).1 := by
  by_cases hb : Bound b
  · rw [Clear_fst b mtx hb]
    have hC := h.one_le
    obtain ⟨ha, h1, h2, h3, h4, h5⟩ := h
    exact ⟨ha, le_refl _, by simpa using hC, le_refl _, by simpa using hC, h5⟩
  · have : (b.Clear mtx).1 = b := by
      unfold Bound at hb
      simp only [ne_eq, not_not] at hb
      simp [Clear, hb]
    rw [this]; exact h

theorem Bound_Clear {b : LSkipPacketCircularBuffer} (hb : Bound b)
    (mtx : OSMutexObj) : Bound (b.Clear mtx).1 := by
  rw [Clear_fst b mtx hb]; exact hb


/-! ### Cells of the ring and the unread records -/

theorem getD_set_self (recs : List GSkipPacket) (j : Nat) (p : GSkipPacket)
    (h : j < recs.length) : (recs.set j p).getD j default = p := by
  simp [List.getD_eq_getElem?_getD, h]

theorem getD_set_other (recs : List GSkipPacket) (i j : Nat) (p : GSkipPacket) (h : i ≠ j) :
    (recs.set j p).getD i default = recs.getD i default := by
  simp [List.getD_eq_getElem?_getD, List.getElem?_set_ne h.symm]

theorem cellsFrom_length (recs : List GSkipPacket) (C : Int) (k : Nat) (i : Int) :
    (cellsFrom recs C k i).length = k := by
  induction k generalizing i with
  | zero => rfl
  | succ k ih => simp [cellsFrom, ih]

theorem cellsFrom_snoc (recs : List GSkipPacket) (C : Int) (k : Nat) :
    ∀ i j : Int, 0 ≤ i → i < C → 0 ≤ j → j < C → ringDist C i j = k →
      cellsFrom recs C (k + 1) i = cellsFrom recs C k i ++ [recs.getD j.toNat default] := by
  induction k with
  | zero =>
    intro i j h0 hi h1 hj hd
    have : j = i := by
      unfold ringDist at hd
      split_ifs at hd <;> omega
    subst this
    simp [cellsFrom]
  | succ k ih =>
    intro i j h0 hi h1 hj hd
    have hC : 1 ≤ C := by omega
    have hpos : 0 < ringDist C i j := by omega
    have hstep := ringDist_wrapInc_left (i := i) h1 hj hpos
    have hk : ringDist C (wrapInc C i) j = k := by
      rw [hstep, hd]; push_cast; omega
    have := ih (wrapInc C i) j (wrapInc_nonneg h0) (wrapInc_lt hi hC) h1 hj hk
    rw [cellsFrom, this]
    simp [cellsFrom]

theorem cellsFrom_set (recs : List GSkipPacket) (C : Int) (p : GSkipPacket) (k : Nat) :
    ∀ i j : Int, 0 ≤ i → i < C → 0 ≤ j → j < C → (k : Int) ≤ ringDist C i j →
      cellsFrom (recs.set j.toNat p) C k i = cellsFrom recs C k i := by
  induction k with
  | zero => intro i j _ _ _ _ _; rfl
  | succ k ih =>
    intro i j h0 hi h1 hj hd
    have hC : 1 ≤ C := by omega
    have hpos : 0 < ringDist C i j := by omega
    have hne : i.toNat ≠ j.toNat := by
      intro he
      have : i = j := by omega
      subst this
      unfold ringDist at hpos
      simp at hpos
    have hstep := ringDist_wrapInc_left (i := i) h1 hj hpos
    have hk : (k : Int) ≤ ringDist C (wrapInc C i) j := by
      rw [hstep]; push_cast at hd; omega
    have := ih (wrapInc C i) j (wrapInc_nonneg h0) (wrapInc_lt hi hC) h1 hj hk
    simp only [cellsFrom, this, getD_set_other recs _ _ p hne]

theorem contents_length {C : Int} {b : LSkipPacketCircularBuffer} (h : Inv C b) :
    ((contents b).length : Int) = ringDist C b.m_nFirstRec b.m_nNextRec := by
  have h0 := h.ringDist_nonneg
  unfold contents
  rw [cellsFrom_length, h.alloc]
  omega

theorem contents_AddRec {C : Int} {b : LSkipPacketCircularBuffer} (h : Inv C b) (hb : Bound b)
    (p : GSkipPacket) (mtx : OSMutexObj) :
    contents (b.AddRec p mtx).1 =
      (contents b ++ [p]).drop
        (if ringDist C b.m_nFirstRec b.m_nNextRec = C - 1 then 1 else 0) := by
  have hC := h.one_le
  have hd0 := h.ringDist_nonneg
  have hd1 := h.ringDist_le
  rw [AddRec_fst b p mtx hb]
  obtain ⟨ha, h1, h2, h3, h4, h5⟩ := h
  subst ha
  have hset : (b.m_pRecs.set b.m_nNextRec.toNat p).getD b.m_nNextRec.toNat default = p :=
    getD_set_self _ _ _ (by omega)
  unfold contents
  dsimp only
  by_cases hfull : ringDist b.m_nRecsAllocated b.m_nFirstRec b.m_nNextRec = b.m_nRecsAllocated - 1
  · simp only [hfull, if_true]
    by_cases hone : b.m_nRecsAllocated = 1
    · have e1 : b.m_nFirstRec = 0 := by omega
      have e2 : b.m_nNextRec = 0 := by omega
      simp [hone, e1, e2, wrapInc, ringDist, cellsFrom]
    · -- at least two cells: the oldest record is dropped
      have hpos : 0 < ringDist b.m_nRecsAllocated b.m_nFirstRec b.m_nNextRec := by omega
      have hl := ringDist_wrapInc_left (i := b.m_nFirstRec) h3 h4 hpos
      have hf0 := wrapInc_nonneg (C := b.m_nRecsAllocated) h1
      have hf1 := wrapInc_lt h2 hC
      have hne : ringDist b.m_nRecsAllocated (wrapInc b.m_nRecsAllocated b.m_nFirstRec)
          b.m_nNextRec ≠ b.m_nRecsAllocated - 1 := by omega
      have hr := ringDist_wrapInc_right hf0 hf1 h3 hne
      obtain ⟨k, hk⟩ : ∃ k : Nat, (k : Int) = b.m_nRecsAllocated - 2 := ⟨(b.m_nRecsAllocated - 2).toNat, by omega⟩
      have t1 : (b.m_nRecsAllocated - 1).toNat = k + 1 := by omega
      have t2 : (ringDist b.m_nRecsAllocated (wrapInc b.m_nRecsAllocated b.m_nFirstRec)
          (wrapInc b.m_nRecsAllocated b.m_nNextRec)).toNat = k + 1 := by omega
      have hdk : ringDist b.m_nRecsAllocated (wrapInc b.m_nRecsAllocated b.m_nFirstRec)
          b.m_nNextRec = k := by omega
      rw [t1, t2]
      rw [cellsFrom_snoc _ _ k _ b.m_nNextRec hf0 hf1 h3 h4 hdk, hset]
      rw [cellsFrom_set _ _ _ k _ b.m_nNextRec hf0 hf1 h3 h4 (by omega)]
      rfl
  · simp only [hfull, if_false, List.drop_zero]
    have hr := ringDist_wrapInc_right h1 h2 h3 hfull
    obtain ⟨k, hk⟩ : ∃ k : Nat, (k : Int) = ringDist b.m_nRecsAllocated b.m_nFirstRec b.m_nNextRec :=
      ⟨(ringDist b.m_nRecsAllocated b.m_nFirstRec b.m_nNextRec).toNat, by omega⟩
    have t1 : (ringDist b.m_nRecsAllocated b.m_nFirstRec b.m_nNextRec).toNat = k := by omega
    have t2 : (ringDist b.m_nRecsAllocated b.m_nFirstRec
        (wrapInc b.m_nRecsAllocated b.m_nNextRec)).toNat = k + 1 := by omega
    rw [t1, t2]
    rw [cellsFrom_snoc _ _ k _ b.m_nNextRec h1 h2 h3 h4 hk.symm, hset]
    rw [cellsFrom_set _ _ _ k _ b.m_nNextRec h1 h2 h3 h4 (by omega)]

theorem contents_RetrieveRec_pos {C : Int} {b : LSkipPacketCircularBuffer} (h : Inv C b)
    (hpos : 0 < ringDist C b.m_nFirstRec b.m_nNextRec) :
    contents b = b.m_pRecs.getD b.m_nFirstRec.toNat default ::
      contents { b with m_nFirstRec := wrapInc b.m_nRecsAllocated b.m_nFirstRec } := by
  obtain ⟨ha, h1, h2, h3, h4, h5⟩ := h
  subst ha
  have hl := ringDist_wrapInc_left (i := b.m_nFirstRec) h3 h4 hpos
  unfold contents
  dsimp only
  obtain ⟨k, hk⟩ : ∃ k : Nat, (k : Int) + 1 = ringDist b.m_nRecsAllocated b.m_nFirstRec b.m_nNextRec :=
    ⟨(ringDist b.m_nRecsAllocated b.m_nFirstRec b.m_nNextRec - 1).toNat, by omega⟩
  have t1 : (ringDist b.m_nRecsAllocated b.m_nFirstRec b.m_nNextRec).toNat = k + 1 := by omega
  have t2 : (ringDist b.m_nRecsAllocated (wrapInc b.m_nRecsAllocated b.m_nFirstRec)
      b.m_nNextRec).toNat = k := by omega
  rw [t1, t2, cellsFrom]

theorem contents_of_zero {b : LSkipPacketCircularBuffer}
    (hz : ringDist b.m_nRecsAllocated b.m_nFirstRec b.m_nNextRec = 0) : contents b = [] := by
  simp [contents, hz, cellsFrom]

theorem contents_Clear (b : LSkipPacketCircularBuffer) (mtx : OSMutexObj) (hb : Bound b) :
    contents (b.Clear mtx).1 = [] := by
  rw [Clear_fst b mtx hb]
  simp [contents, ringDist, cellsFrom]

theorem contents_fresh (C : Int) : contents (fresh C) = [] := by
  simp [contents, fresh, new, SetQueueAccessMutex, ringDist, cellsFrom]


/-! ### Draining and repeated pushing -/

theorem RetrieveRec_pos (b : LSkipPacketCircularBuffer) (mtx : OSMutexObj) (hb : Bound b)
    (hpos : 0 < ringDist b.m_nRecsAllocated b.m_nFirstRec b.m_nNextRec) :
    ∃ mtx1, b.RetrieveRec mtx =
      (true, some (b.m_pRecs.getD b.m_nFirstRec.toNat default),
        { b with m_nFirstRec := wrapInc b.m_nRecsAllocated b.m_nFirstRec }, mtx1) := by
  refine ⟨(b.RetrieveRec mtx).2.2.2, ?_⟩
  have h1 := RetrieveRec_flag b mtx hb
  have h2 := RetrieveRec_rec b mtx hb
  have h3 := RetrieveRec_buf b mtx hb
  simp only [hpos, if_true, decide_True] at h1 h2 h3
  refine Prod.ext h1 (Prod.ext h2 (Prod.ext h3 rfl))

theorem RetrieveRec_empty (b : LSkipPacketCircularBuffer) (mtx : OSMutexObj) (hb : Bound b)
    (hz : ¬ 0 < ringDist b.m_nRecsAllocated b.m_nFirstRec b.m_nNextRec) :
    ∃ mtx1, b.RetrieveRec mtx = (false, none, b, mtx1) := by
  refine ⟨(b.RetrieveRec mtx).2.2.2, ?_⟩
  have h1 := RetrieveRec_flag b mtx hb
  have h2 := RetrieveRec_rec b mtx hb
  have h3 := RetrieveRec_buf b mtx hb
  simp only [hz, if_false, decide_False] at h1 h2 h3
  refine Prod.ext h1 (Prod.ext h2 (Prod.ext h3 rfl))

theorem drainLoop_eq {C : Int} (fuel : Nat) :
    ∀ (b : LSkipPacketCircularBuffer) (mtx : OSMutexObj), Inv C b → Bound b →
      ringDist C b.m_nFirstRec b.m_nNextRec < fuel →
      ∃ mtx1, drainLoop fuel b mtx =
        some (contents b, { b with m_nFirstRec := b.m_nNextRec }, mtx1) := by
  induction fuel with
  | zero =>
    intro b mtx h _ hlt
    have := h.ringDist_nonneg
    simp at hlt
    omega
  | succ fuel ih =>
    intro b mtx h hb hlt
    have ha := h.alloc
    by_cases hpos : 0 < ringDist C b.m_nFirstRec b.m_nNextRec
    · have hpos1 : 0 < ringDist b.m_nRecsAllocated b.m_nFirstRec b.m_nNextRec := by
        rw [ha]; exact hpos
      obtain ⟨m1, hm1⟩ := RetrieveRec_pos b mtx hb hpos1
      have hInv : Inv C { b with m_nFirstRec := wrapInc b.m_nRecsAllocated b.m_nFirstRec } := by
        have := Inv_RetrieveRec h mtx
        rw [hm1] at this; exact this
      have hB : Bound { b with m_nFirstRec := wrapInc b.m_nRecsAllocated b.m_nFirstRec } := hb
      have hl := ringDist_wrapInc_left (i := b.m_nFirstRec) h.next_nonneg h.next_lt hpos
      have hlt1 : ringDist C
          ({ b with m_nFirstRec := wrapInc b.m_nRecsAllocated b.m_nFirstRec } :
            LSkipPacketCircularBuffer).m_nFirstRec
          ({ b with m_nFirstRec := wrapInc b.m_nRecsAllocated b.m_nFirstRec } :
            LSkipPacketCircularBuffer).m_nNextRec < fuel := by
        dsimp only
        rw [ha, hl]
        push_cast at hlt
        omega
      obtain ⟨m2, hm2⟩ := ih _ m1 hInv hB hlt1
      refine ⟨m2, ?_⟩
      rw [drainLoop, hm1]
      simp only [hm2]
      rw [contents_RetrieveRec_pos h hpos]
    · obtain ⟨m1, hm1⟩ := RetrieveRec_empty b mtx hb (by rw [ha]; exact hpos)
      refine ⟨m1, ?_⟩
      have hz : ringDist C b.m_nFirstRec b.m_nNextRec = 0 := by
        have := h.ringDist_nonneg; omega
      have hfn : b.m_nNextRec = b.m_nFirstRec := by
        have h1 := h.first_nonneg
        have h2 := h.first_lt
        have h3 := h.next_nonneg
        have h4 := h.next_lt
        unfold ringDist at hz
        split_ifs at hz <;> omega
      have hself : ({ b with m_nFirstRec := b.m_nNextRec } : LSkipPacketCircularBuffer) = b := by
        cases b
        simp only at hfn
        subst hfn
        rfl
      rw [drainLoop, hm1]
      simp only
      rw [contents_of_zero (by rw [ha]; exact hz), hself]

theorem drain_eq {C : Int} {b : LSkipPacketCircularBuffer} (h : Inv C b) (hb : Bound b)
    (mtx : OSMutexObj) :
    ∃ mtx1, drain b mtx = some (contents b, { b with m_nFirstRec := b.m_nNextRec }, mtx1) := by
  unfold drain
  refine drainLoop_eq _ b mtx h hb ?_
  have h1 := h.ringDist_le
  have h2 := h.one_le
  rw [h.alloc]
  omega

theorem Inv_addAll {C : Int} (ps : List GSkipPacket) :
    ∀ (b : LSkipPacketCircularBuffer) (mtx : OSMutexObj), Inv C b → Inv C (addAll b mtx ps).1 := by
  induction ps with
  | nil => intro b mtx h; exact h
  | cons p ps ih => intro b mtx h; exact ih _ _ (Inv_AddRec h p mtx)

theorem Bound_addAll (ps : List GSkipPacket) :
    ∀ (b : LSkipPacketCircularBuffer) (mtx : OSMutexObj), Bound b → Bound (addAll b mtx ps).1 := by
  induction ps with
  | nil => intro b mtx h; exact h
  | cons p ps ih => intro b mtx h; exact ih _ _ (Bound_AddRec h p mtx)

/-- Keeping the last `k` elements of a list. -/
theorem drop_last_append (k : Nat) (l r : List GSkipPacket) :
    (l.drop (l.length - k) ++ r).drop ((l.drop (l.length - k) ++ r).length - k) =
      (l ++ r).drop ((l ++ r).length - k) := by
  by_cases hk : l.length ≤ k
  · have : l.length - k = 0 := by omega
    simp [this]
  · have e1 : (l.drop (l.length - k) ++ r).length - k = r.length := by
      simp only [List.length_append, List.length_drop]; omega
    have e2 : (l ++ r).length - k = (l.length - k) + r.length := by
      simp only [List.length_append]; omega
    rw [e1, e2, ← List.drop_drop]
    congr 1
    exact (List.drop_append_of_le_length (by omega)).symm

theorem contents_AddRec_last {C : Int} {b : LSkipPacketCircularBuffer} (h : Inv C b)
    (hb : Bound b) (p : GSkipPacket) (mtx : OSMutexObj) :
    contents (b.AddRec p mtx).1 =
      (contents b ++ [p]).drop ((contents b ++ [p]).length - (C - 1).toNat) := by
  rw [contents_AddRec h hb]
  have hl := contents_length h
  have h1 := h.ringDist_le
  have h0 := h.ringDist_nonneg
  congr 1
  simp only [List.length_append, List.length_singleton]
  split <;> omega

theorem contents_addAll {C : Int} (ps : List GSkipPacket) :
    ∀ (b : LSkipPacketCircularBuffer) (mtx : OSMutexObj), Inv C b → Bound b →
      contents (addAll b mtx ps).1 =
        (contents b ++ ps).drop ((contents b ++ ps).length - (C - 1).toNat) := by
  induction ps with
  | nil =>
    intro b mtx h _
    have hl := contents_length h
    have h1 := h.ringDist_le
    have : (contents b ++ []).length - (C - 1).toNat = 0 := by
      simp only [List.append_nil]; omega
    rw [this]; simp [addAll]
  | cons p ps ih =>
    intro b mtx h hb
    rw [addAll, ih _ _ (Inv_AddRec h p mtx) (Bound_AddRec hb p mtx),
      contents_AddRec_last h hb, drop_last_append]
    simp


/-! ### Sequences of calls -/

theorem Inv_call {C : Int} {b : LSkipPacketCircularBuffer} (h : Inv C b) (c : Call)
    (mtx : OSMutexObj) : Inv C (call c b mtx).2.1 := by
  cases c with
  | AddRec p => exact Inv_AddRec h p mtx
  | RetrieveRec => exact Inv_RetrieveRec h mtx
  | NumRecsAvailable => exact h
  | Clear => exact Inv_Clear h mtx

theorem Bound_call {b : LSkipPacketCircularBuffer} (hb : Bound b) (c : Call)
    (mtx : OSMutexObj) : Bound (call c b mtx).2.1 := by
  cases c with
  | AddRec p => exact Bound_AddRec hb p mtx
  | RetrieveRec => exact Bound_RetrieveRec hb mtx
  | NumRecsAvailable => exact hb
  | Clear => exact Bound_Clear hb mtx

theorem Inv_run {C : Int} (cs : List Call) :
    ∀ (b : LSkipPacketCircularBuffer) (mtx : OSMutexObj), Inv C b → Inv C (run cs b mtx).2.1 := by
  induction cs with
  | nil => intro b mtx h; exact h
  | cons c cs ih => intro b mtx h; exact ih _ _ (Inv_call h c mtx)

theorem Bound_run (cs : List Call) :
    ∀ (b : LSkipPacketCircularBuffer) (mtx : OSMutexObj), Bound b → Bound (run cs b mtx).2.1 := by
  induction cs with
  | nil => intro b mtx h; exact h
  | cons c cs ih => intro b mtx h; exact ih _ _ (Bound_call h c mtx)

theorem ringDist_eq_emod {C i j : Int} (h0 : 0 ≤ i) (hi : i < C) (h1 : 0 ≤ j) (hj : j < C) :
    ringDist C i j = (j - i) % C := by
  unfold ringDist
  split
  · rw [← Int.add_emod_self, Int.emod_eq_of_lt (by omega) (by omega)]
  · rw [Int.emod_eq_of_lt (by omega) (by omega)]

/-- One call on the buffer and on the reference queue, started in matching
states, hand back the same value and end in matching states. -/
theorem call_refines {C : Int} (hC : 2 ≤ C) {b : LSkipPacketCircularBuffer} (h : Inv C b)
    (hb : Bound b) (c : Call) (mtx : OSMutexObj) :
    (call c b mtx).1 = (RefQueue.call C c (contents b)).1 ∧
      contents (call c b mtx).2.1 = (RefQueue.call C c (contents b)).2 := by
  have hl := contents_length h
  have ha := h.alloc
  cases c with
  | AddRec p =>
    refine ⟨rfl, ?_⟩
    show contents (b.AddRec p mtx).1 = RefQueue.push C (contents b) p
    rw [contents_AddRec h hb, RefQueue.push, hl]
    split
    · have : contents b ≠ [] := by
        intro he
        rw [he] at hl
        simp at hl
        omega
      obtain ⟨x, xs, hx⟩ := List.exists_cons_of_ne_nil this
      rw [hx]; simp
    · simp
  | RetrieveRec =>
    by_cases hpos : 0 < ringDist C b.m_nFirstRec b.m_nNextRec
    · obtain ⟨m1, hm1⟩ := RetrieveRec_pos b mtx hb (by rw [ha]; exact hpos)
      simp only [call, hm1, RefQueue.call]
      rw [contents_RetrieveRec_pos h hpos]
      exact ⟨rfl, rfl⟩
    · obtain ⟨m1, hm1⟩ := RetrieveRec_empty b mtx hb (by rw [ha]; exact hpos)
      have hz : ringDist b.m_nRecsAllocated b.m_nFirstRec b.m_nNextRec = 0 := by
        have := h.ringDist_nonneg; rw [ha]; omega
      simp only [call, hm1, RefQueue.call]
      rw [contents_of_zero hz]
      exact ⟨rfl, rfl⟩
  | NumRecsAvailable =>
    refine ⟨?_, rfl⟩
    simp only [call, RefQueue.call]
    rw [NumRecsAvailable_fst b mtx hb, ha, hl]
  | Clear =>
    refine ⟨rfl, ?_⟩
    exact contents_Clear b mtx hb

theorem run_refines {C : Int} (hC : 2 ≤ C) (cs : List Call) :
    ∀ (b : LSkipPacketCircularBuffer) (mtx : OSMutexObj), Inv C b → Bound b →
      (run cs b mtx).1 = (RefQueue.run C cs (contents b)).1 ∧
        contents (run cs b mtx).2.1 = (RefQueue.run C cs (contents b)).2 := by
  induction cs with
  | nil => intro b mtx _ _; exact ⟨rfl, rfl⟩
  | cons c cs ih =>
    intro b mtx h hb
    obtain ⟨h1, h2⟩ := call_refines hC h hb c mtx
    obtain ⟨h3, h4⟩ := ih _ (call c b mtx).2.2 (Inv_call h c mtx) (Bound_call hb c mtx)
    rw [h2] at h3 h4
    simp only [run, RefQueue.run]
    exact ⟨by rw [h1, h3], h4⟩

end LSkipPacketCircularBuffer

/-! ## Facts about the read loop -/

namespace GSkipBaseDevice

open LSkipPacketCircularBuffer

theorem contents_advance {C : Int} {b : LSkipPacketCircularBuffer} (h : Inv C b)
    (hpos : 0 < ringDist C b.m_nFirstRec b.m_nNextRec) :
    contents { b with m_nFirstRec := wrapInc b.m_nRecsAllocated b.m_nFirstRec } =
      (contents b).drop 1 := by
  rw [contents_RetrieveRec_pos h hpos]; rfl

/-- What the read loop does: it retrieves `k` packets, `k` being the smaller of
the number still wanted and the number available, stores them in the slots from
`nPacketsRead` on and removes them from the buffer. -/
theorem readLoop_spec {C : Int} (desired : Int) (fuel : Nat) :
    ∀ s : ReadLoopState, Inv C s.buf → Bound s.buf → 0 ≤ s.nPacketsRead →
      (desired - s.nPacketsRead).toNat ≤ fuel →
      ∃ k : Nat,
        (k : Int) = min (max 0 (desired - s.nPacketsRead))
          (ringDist C s.buf.m_nFirstRec s.buf.m_nNextRec) ∧
        (readLoop desired fuel s).nPacketsRead = s.nPacketsRead + k ∧
        Inv C (readLoop desired fuel s).buf ∧ Bound (readLoop desired fuel s).buf ∧
        contents (readLoop desired fuel s).buf = (contents s.buf).drop k ∧
        ∀ i : Nat, (readLoop desired fuel s).pBuffer i =
          if s.nPacketsRead.toNat ≤ i ∧ i < s.nPacketsRead.toNat + k
          then (contents s.buf).getD (i - s.nPacketsRead.toNat) default
          else s.pBuffer i := by
  induction fuel with
  | zero =>
    intro s h hb h0 hf
    have hd0 := h.ringDist_nonneg
    refine ⟨0, ?_, ?_, h, hb, ?_, ?_⟩
    · have : desired - s.nPacketsRead ≤ 0 := by omega
      simp [max_eq_left this, min_eq_left hd0]
    · simp [readLoop]
    · simp [readLoop]
    · intro i
      have : ¬ (s.nPacketsRead.toNat ≤ i ∧ i < s.nPacketsRead.toNat + 0) := by omega
      rw [if_neg this]
      rfl
  | succ fuel ih =>
    intro s h hb h0 hf
    have hd0 := h.ringDist_nonneg
    have ha := h.alloc
    by_cases hlt : s.nPacketsRead < desired
    · by_cases hpos : 0 < ringDist C s.buf.m_nFirstRec s.buf.m_nNextRec
      · obtain ⟨m1, hm1⟩ := RetrieveRec_pos s.buf s.mtx hb (by rw [ha]; exact hpos)
        have hInv : Inv C { s.buf with m_nFirstRec := wrapInc s.buf.m_nRecsAllocated s.buf.m_nFirstRec } := by
          have := Inv_RetrieveRec h s.mtx
          rw [hm1] at this; exact this
        have hl := ringDist_wrapInc_left (i := s.buf.m_nFirstRec) h.next_nonneg h.next_lt hpos
        obtain ⟨k, hk, hn, hI, hB, hc, hp⟩ := ih
          { buf := { s.buf with m_nFirstRec := wrapInc s.buf.m_nRecsAllocated s.buf.m_nFirstRec }
            mtx := m1
            pBuffer := Function.update s.pBuffer s.nPacketsRead.toNat
              (s.buf.m_pRecs.getD s.buf.m_nFirstRec.toNat default)
            nPacketsRead := s.nPacketsRead + 1 } hInv hb (by dsimp only; omega)
          (by dsimp only; omega)
        have hrl : readLoop desired (fuel + 1) s = readLoop desired fuel
            { buf := { s.buf with m_nFirstRec := wrapInc s.buf.m_nRecsAllocated s.buf.m_nFirstRec }
              mtx := m1
              pBuffer := Function.update s.pBuffer s.nPacketsRead.toNat
                (s.buf.m_pRecs.getD s.buf.m_nFirstRec.toNat default)
              nPacketsRead := s.nPacketsRead + 1 } := by
          rw [readLoop, if_pos hlt, hm1]
        dsimp only at hk hn hc hp
        rw [ha] at hk
        rw [hrl]
        refine ⟨k + 1, ?_, ?_, hI, hB, ?_, ?_⟩
        · rw [hl] at hk
          push_cast
          rw [hk]
          omega
        · rw [hn]; push_cast; omega
        · rw [hc, contents_advance h hpos, List.drop_drop, Nat.add_comm]
        · intro i
          rw [hp i, contents_RetrieveRec_pos h hpos]
          by_cases hi : i = s.nPacketsRead.toNat
          · subst hi
            have c1 : ¬ ((s.nPacketsRead + 1).toNat ≤ s.nPacketsRead.toNat ∧
                s.nPacketsRead.toNat < (s.nPacketsRead + 1).toNat + k) := by omega
            have c2 : s.nPacketsRead.toNat ≤ s.nPacketsRead.toNat ∧
                s.nPacketsRead.toNat < s.nPacketsRead.toNat + (k + 1) := by omega
            rw [if_neg c1, if_pos c2]
            simp
          · by_cases hr : (s.nPacketsRead + 1).toNat ≤ i ∧ i < (s.nPacketsRead + 1).toNat + k
            · have c2 : s.nPacketsRead.toNat ≤ i ∧ i < s.nPacketsRead.toNat + (k + 1) := by omega
              rw [if_pos hr, if_pos c2]
              have e : i - s.nPacketsRead.toNat = (i - (s.nPacketsRead + 1).toNat) + 1 := by omega
              rw [e, ha]
              simp [List.getD_eq_getElem?_getD]
            · have c2 : ¬ (s.nPacketsRead.toNat ≤ i ∧ i < s.nPacketsRead.toNat + (k + 1)) := by
                omega
              rw [if_neg hr, if_neg c2, Function.update_noteq hi]
      · obtain ⟨m1, hm1⟩ := RetrieveRec_empty s.buf s.mtx hb (by rw [ha]; exact hpos)
        have hrl : readLoop desired (fuel + 1) s = { s with buf := s.buf, mtx := m1 } := by
          rw [readLoop, if_pos hlt, hm1]
        rw [hrl]
        refine ⟨0, ?_, ?_, h, hb, ?_, ?_⟩
        · have : ringDist C s.buf.m_nFirstRec s.buf.m_nNextRec = 0 := by omega
          rw [this]
          simp
        · simp
        · simp
        · intro i
          have : ¬ (s.nPacketsRead.toNat ≤ i ∧ i < s.nPacketsRead.toNat + 0) := by omega
          rw [if_neg this]
    · have hrl : readLoop desired (fuel + 1) s = s := by
        rw [readLoop, if_neg hlt]
      rw [hrl]
      refine ⟨0, ?_, ?_, h, hb, ?_, ?_⟩
      · have : desired - s.nPacketsRead ≤ 0 := by omega
        simp [max_eq_left this, min_eq_left hd0]
      · simp
      · simp
      · intro i
        have : ¬ (s.nPacketsRead.toNat ≤ i ∧ i < s.nPacketsRead.toNat + 0) := by omega
        rw [if_neg this]

/-- The read loop as the two read routines start it. -/
theorem readLoop_from_zero {C : Int} {b : LSkipPacketCircularBuffer} (h : Inv C b)
    (hb : Bound b) (mtx : OSMutexObj) (pBuffer : Nat → GSkipPacket) (n nb : Int) :
    ∃ k : Nat,
      (k : Int) = min (max 0 (min n nb)) (b.NumRecsAvailable mtx).1 ∧
      (readLoop (if n > nb then nb else n) (if n > nb then nb else n).toNat
        { buf := b, mtx := mtx, pBuffer := pBuffer, nPacketsRead := 0 }).nPacketsRead = k ∧
      (∀ i : Nat, i < k → (contents b)[i]? = some
        ((readLoop (if n > nb then nb else n) (if n > nb then nb else n).toNat
          { buf := b, mtx := mtx, pBuffer := pBuffer, nPacketsRead := 0 }).pBuffer i)) ∧
      (∀ i : Nat, k ≤ i →
        (readLoop (if n > nb then nb else n) (if n > nb then nb else n).toNat
          { buf := b, mtx := mtx, pBuffer := pBuffer, nPacketsRead := 0 }).pBuffer i = pBuffer i) ∧
      contents (readLoop (if n > nb then nb else n) (if n > nb then nb else n).toNat
          { buf := b, mtx := mtx, pBuffer := pBuffer, nPacketsRead := 0 }).buf =
        (contents b).drop k ∧
      Inv C (readLoop (if n > nb then nb else n) (if n > nb then nb else n).toNat
          { buf := b, mtx := mtx, pBuffer := pBuffer, nPacketsRead := 0 }).buf ∧
      Bound (readLoop (if n > nb then nb else n) (if n > nb then nb else n).toNat
          { buf := b, mtx := mtx, pBuffer := pBuffer, nPacketsRead := 0 }).buf := by
  have hmin : (if n > nb then nb else n) = min n nb := by
    split
    · exact (min_eq_right (by omega)).symm
    · exact (min_eq_left (by omega)).symm
  rw [hmin]
  obtain ⟨k, hk, hn, hI, hB, hc, hp⟩ := readLoop_spec (C := C) (min n nb) (min n nb).toNat
    { buf := b, mtx := mtx, pBuffer := pBuffer, nPacketsRead := 0 } h hb (le_refl _)
    (by dsimp only; omega)
  dsimp only at hk hn hc hp
  have hl := contents_length h
  have hd0 := h.ringDist_nonneg
  refine ⟨k, ?_, ?_, ?_, ?_, hc, hI, hB⟩
  · rw [NumRecsAvailable_fst b mtx hb, h.alloc, hk]; simp
  · rw [hn]; simp
  · intro i hi
    rw [hp i]
    have c : (0 : Int).toNat ≤ i ∧ i < (0 : Int).toNat + k := by simp; exact hi
    rw [if_pos c]
    have hik : i < (contents b).length := by
      have : (k : Int) ≤ ringDist C b.m_nFirstRec b.m_nNextRec := by
        rw [hk]; exact min_le_right _ _
      omega
    simp [List.getD_eq_getElem?_getD, List.getElem?_eq_getElem hik]
  · intro i hi
    rw [hp i]
    have c : ¬ ((0 : Int).toNat ≤ i ∧ i < (0 : Int).toNat + k) := by simp; omega
    rw [if_neg c]

end GSkipBaseDevice

/-! ## Facts about sessions -/

namespace LSkipMgr

open LSkipPacketCircularBuffer

theorem Inv_new (C : Int) (hC : 1 ≤ C) (m : OSMutex) :
    Inv C ((LSkipPacketCircularBuffer.new C).SetQueueAccessMutex m) := by
  refine ⟨rfl, ?_, ?_, ?_, ?_, ?_⟩ <;>
    simp [LSkipPacketCircularBuffer.new, SetQueueAccessMutex] <;> omega

theorem Inv_SetQueueAccessMutex {C : Int} {b : LSkipPacketCircularBuffer} (h : Inv C b)
    (m : OSMutex) : Inv C (b.SetQueueAccessMutex m) :=
  ⟨h.alloc, h.first_nonneg, h.first_lt, h.next_nonneg, h.next_lt, h.length_recs⟩

/-- A successful `Open` leaves the session open. -/
theorem IsOpen_Open (s : LSkipMgr) (o : OpenOutcome) (hm : Inv 2000 s.m_pMesBuf)
    (hc : Inv 2000 s.m_pCmdBuf) (hok : (s.Open o).1 = kResponse_OK) : (s.Open o).2.IsOpen := by
  unfold Open at hok ⊢
  by_cases h1 : o.OSCreateMutex = OSMutex.null
  · simp [h1] at hok
  · by_cases h2 : o.fd = -1
    · simp [h1, h2] at hok
    · by_cases h3 : o.threadAllocated
      · by_cases h4 : o.OSStartThread
        · simp only [h1, h2, h3, h4, ne_eq, not_false_eq_true, if_true, not_true_eq_false,
            if_false]
          exact ⟨Inv_SetQueueAccessMutex hm _, h1, Inv_SetQueueAccessMutex hc _, h1⟩
        · simp [h1, h2, h3, h4] at hok
      · simp [h1, h2, h3] at hok

theorem IsOpen_exampleSession : exampleSession.IsOpen :=
  IsOpen_Open LSkipMgr.new exampleOpen (Inv_new 2000 (by decide) _) (Inv_new 2000 (by decide) _)
    (by decide)

theorem listenBody_cmd (L : PacketLayout) (r : ReadResult) (s : ListenState)
    (h : isCmdRespRead L r) :
    (listenBody L r s).mgr =
      { s.mgr with
        m_pCmdBuf := (s.mgr.m_pCmdBuf.AddRec r.buf s.mgr.mutexObj).1
        mutexObj := (s.mgr.m_pCmdBuf.AddRec r.buf s.mgr.mutexObj).2 } := by
  obtain ⟨h8, hbit⟩ := h
  unfold listenBody
  dsimp only
  rw [if_pos h8, if_pos hbit]

theorem listenBody_meas (L : PacketLayout) (r : ReadResult) (s : ListenState)
    (h : isMeasurementRead L r) :
    (listenBody L r s).mgr =
      { s.mgr with
        m_pMesBuf := (s.mgr.m_pMesBuf.AddRec r.buf s.mgr.mutexObj).1
        mutexObj := (s.mgr.m_pMesBuf.AddRec r.buf s.mgr.mutexObj).2
        m_lastNumMeasurementsInPacket := nMeasurementsInPacket L r.buf } := by
  obtain ⟨h8, hbit⟩ := h
  unfold listenBody
  dsimp only
  rw [if_pos h8, if_neg (not_not.mpr hbit)]

theorem listenBody_short (L : PacketLayout) (r : ReadResult) (s : ListenState)
    (h : r.nNumberOfBytesRead ≠ 8) : (listenBody L r s).mgr = s.mgr := by
  simp [listenBody, h]

theorem read_cases (L : PacketLayout) (r : ReadResult) :
    isCmdRespRead L r ∨ isMeasurementRead L r ∨ r.nNumberOfBytesRead ≠ 8 := by
  unfold isCmdRespRead isMeasurementRead
  by_cases h8 : r.nNumberOfBytesRead = 8
  · by_cases hbit : r.buf.bytes.getD 0 0 &&& L.SKIP_MASK_INPUT_PACKET_TYPE = 0
    · exact Or.inr (Or.inl ⟨h8, hbit⟩)
    · exact Or.inl ⟨h8, hbit⟩
  · exact Or.inr (Or.inr h8)

theorem IsOpen_listenBody (L : PacketLayout) (r : ReadResult) (s : ListenState)
    (h : s.mgr.IsOpen) : (listenBody L r s).mgr.IsOpen := by
  obtain ⟨hIm, hBm, hIc, hBc⟩ := h
  rcases read_cases L r with hc | hm | hs
  · rw [listenBody_cmd L r s hc]
    exact ⟨hIm, hBm, Inv_AddRec hIc _ _, Bound_AddRec hBc _ _⟩
  · rw [listenBody_meas L r s hm]
    exact ⟨Inv_AddRec hIm _ _, Bound_AddRec hBm _ _, hIc, hBc⟩
  · rw [listenBody_short L r s hs]
    exact ⟨hIm, hBm, hIc, hBc⟩

theorem contents_AddRec_getLast {C : Int} (hC : 2 ≤ C) {b : LSkipPacketCircularBuffer}
    (h : Inv C b) (hb : Bound b) (p : GSkipPacket) (mtx : OSMutexObj) :
    (contents (b.AddRec p mtx).1).getLast? = some p := by
  have hl := contents_length h
  rw [contents_AddRec h hb]
  split
  · have : contents b ≠ [] := by
      intro he
      rw [he] at hl
      simp at hl
      omega
    obtain ⟨x, xs, hx⟩ := List.exists_cons_of_ne_nil this
    rw [hx]; simp
  · simp

theorem listenBody_input (L : PacketLayout) (r : ReadResult) (s : ListenState) :
    (listenBody L r s).input = s.input := by
  unfold listenBody
  dsimp only
  split
  · split <;> rfl
  · rfl

theorem listenBody_count (L : PacketLayout) (r : ReadResult) (s : ListenState) :
    (listenBody L r s).count = s.count + 1 := by
  unfold listenBody
  dsimp only
  split
  · split <;> rfl
  · rfl

/-- The loop body does not look at the pending input. -/
theorem listenBody_with_input (L : PacketLayout) (r : ReadResult) (s : ListenState)
    (inp : List ReadResult) :
    listenBody L r { s with input := inp } = { listenBody L r s with input := inp } := by
  unfold listenBody
  dsimp only
  split
  · split <;> rfl
  · rfl

theorem listenAll_with_input (L : PacketLayout) (rs : List ReadResult) :
    ∀ (s : ListenState) (inp : List ReadResult),
      listenAll L rs { s with input := inp } = { listenAll L rs s with input := inp } := by
  induction rs with
  | nil => intro s inp; rfl
  | cons r rs ih =>
    intro s inp
    simp only [listenAll]
    rw [listenBody_with_input, ih]

theorem listenAll_count (L : PacketLayout) (rs : List ReadResult) :
    ∀ s : ListenState, (listenAll L rs s).count = s.count + rs.length := by
  induction rs with
  | nil => intro s; simp [listenAll]
  | cons r rs ih =>
    intro s
    simp only [listenAll, List.length_cons]
    rw [ih, listenBody_count]
    push_cast
    omega

/-- The loop handles the read results one after the other until 20 of them
have been handled in this run or none is left. -/
theorem listenLoop_eq (L : PacketLayout) (fuel : Nat) :
    ∀ s : ListenState, 0 ≤ s.count → (20 - s.count).toNat ≤ fuel →
      listenLoop L fuel s =
        { listenAll L (s.input.take (20 - s.count).toNat) s with
          input := s.input.drop (20 - s.count).toNat } := by
  induction fuel with
  | zero =>
    intro s h0 hf
    have : (20 - s.count).toNat = 0 := by omega
    rw [this]
    simp only [List.take_zero, List.drop_zero, listenAll, listenLoop]
  | succ fuel ih =>
    intro s h0 hf
    rw [listenLoop]
    cases hin : s.input with
    | nil =>
      simp only [List.take_nil, List.drop_nil, listenAll]
      cases s
      simp only at hin
      subst hin
      rfl
    | cons r rest =>
      simp only
      by_cases hlt : s.count < 20
      · rw [if_pos hlt]
        have hc := listenBody_count L r { s with input := rest }
        have hi := listenBody_input L r { s with input := rest }
        dsimp only at hc hi
        rw [ih _ (by rw [hc]; omega) (by rw [hc]; omega), hc, hi]
        obtain ⟨k, hk⟩ : ∃ k : Nat, (20 - s.count).toNat = k + 1 :=
          ⟨(20 - s.count).toNat - 1, by omega⟩
        have hk1 : (20 - (s.count + 1)).toNat = k := by omega
        rw [hk, hk1]
        simp only [List.take_succ_cons, List.drop_succ_cons, listenAll]
        rw [listenBody_with_input, listenAll_with_input, listenAll_with_input]
      · rw [if_neg hlt]
        have : (20 - s.count).toNat = 0 := by omega
        rw [this]
        simp only [List.take_zero, List.drop_zero, listenAll]
        cases s
        simp only at hin
        subst hin
        rfl

end LSkipMgr

namespace LSkipMgr

theorem IsOpen_listenAll (L : PacketLayout) (rs : List ReadResult) :
    ∀ s : ListenState, s.mgr.IsOpen → (listenAll L rs s).mgr.IsOpen := by
  induction rs with
  | nil => intro s h; exact h
  | cons r rs ih => intro s h; exact ih _ (IsOpen_listenBody L r s h)

theorem IsOpen_busySession : busySession.IsOpen :=
  IsOpen_listenAll _ _ _ IsOpen_exampleSession

end LSkipMgr

/-! ## Facts about events on a device -/

namespace GSkipBaseDevice

open LSkipPacketCircularBuffer LSkipMgr

theorem OSReadMeasurementPackets_dev (d : GSkipBaseDevice) (mgr : LSkipMgr)
    (hd : d.m_pOSData = some mgr) (g : GuardOutcome) (pBuffer : Nat → GSkipPacket)
    (n nb : Int) :
    (d.OSReadMeasurementPackets g pBuffer n nb).dev.m_pOSData =
      if g.LockDevice = true ∧ g.IsOKToUse = true then
        some { mgr with
          m_pMesBuf := (readLoop (if n > nb then nb else n) (if n > nb then nb else n).toNat
            { buf := mgr.m_pMesBuf, mtx := mgr.mutexObj, pBuffer := pBuffer,
              nPacketsRead := 0 }).buf
          mutexObj := (readLoop (if n > nb then nb else n) (if n > nb then nb else n).toNat
            { buf := mgr.m_pMesBuf, mtx := mgr.mutexObj, pBuffer := pBuffer,
              nPacketsRead := 0 }).mtx }
      else some mgr := by
  obtain ⟨gl, go⟩ := g
  cases gl <;> cases go <;>
    simp [OSReadMeasurementPackets, hd, lockAndCheck, UnlockDevice]

theorem IsOpen_applyEvent (L : PacketLayout) (e : Event) (d : GSkipBaseDevice)
    (h : d.IsOpen) : (applyEvent L e d).IsOpen := by
  obtain ⟨mgr, hd, hopen⟩ := h
  cases e with
  | received r =>
    refine ⟨_, ?_, IsOpen_listenBody L r
      { mgr := mgr, err_count := 0, count := 0, input := [] } hopen⟩
    simp [applyEvent, receive, hd]
  | readMeasurement g n nb =>
    simp only [applyEvent]
    by_cases hg : g.LockDevice = true ∧ g.IsOKToUse = true
    · have hdev := OSReadMeasurementPackets_dev d mgr hd g (fun _ => default) n nb
      rw [if_pos hg] at hdev
      obtain ⟨hIm, hBm, hIc, hBc⟩ := hopen
      obtain ⟨k, _, _, _, _, _, hI, hB⟩ :=
        readLoop_from_zero hIm hBm mgr.mutexObj (fun _ => default) n nb
      exact ⟨_, hdev, hI, hB, hIc, hBc⟩
    · refine ⟨mgr, ?_, hopen⟩
      rw [OSReadMeasurementPackets_dev d mgr hd, if_neg hg]

theorem IsOpen_applyEvents (L : PacketLayout) (es : List Event) :
    ∀ d : GSkipBaseDevice, d.IsOpen → (applyEvents L es d).IsOpen := by
  induction es with
  | nil => intro d h; exact h
  | cons e es ih => intro d h; exact ih _ (IsOpen_applyEvent L e d h)

theorem applyEvents_append (L : PacketLayout) (es fs : List Event) :
    ∀ d : GSkipBaseDevice, applyEvents L (es ++ fs) d = applyEvents L fs (applyEvents L es d) := by
  induction es with
  | nil => intro d; rfl
  | cons e es ih => intro d; exact ih _

theorem lastNum_OSReadMeasurementPackets (d : GSkipBaseDevice) (g : GuardOutcome)
    (pBuffer : Nat → GSkipPacket) (n nb : Int) :
    (d.OSReadMeasurementPackets g pBuffer n nb).dev.lastNumMeasurementsInPacket =
      d.lastNumMeasurementsInPacket := by
  unfold lastNumMeasurementsInPacket
  cases hd : d.m_pOSData with
  | none => simp [OSReadMeasurementPackets, hd]
  | some mgr =>
    rw [OSReadMeasurementPackets_dev d mgr hd]
    split <;> rfl

theorem lastNum_applyEvent (L : PacketLayout) (e : Event) (d : GSkipBaseDevice)
    (h : e.notMeasurement L) :
    (applyEvent L e d).lastNumMeasurementsInPacket = d.lastNumMeasurementsInPacket := by
  cases e with
  | received r =>
    simp only [applyEvent, receive]
    cases hd : d.m_pOSData with
    | none => simp [lastNumMeasurementsInPacket, hd]
    | some mgr =>
      simp only [lastNumMeasurementsInPacket, hd, Option.map_some']
      rcases read_cases L r with hc | hm | hs
      · rw [listenBody_cmd L r _ hc]
      · exact absurd hm h
      · rw [listenBody_short L r _ hs]
  | readMeasurement g n nb =>
    exact lastNum_OSReadMeasurementPackets d g _ n nb

theorem lastNum_applyEvents (L : PacketLayout) (es : List Event) :
    ∀ d : GSkipBaseDevice, (∀ e ∈ es, e.notMeasurement L) →
      (applyEvents L es d).lastNumMeasurementsInPacket = d.lastNumMeasurementsInPacket := by
  induction es with
  | nil => intro d _; rfl
  | cons e es ih =>
    intro d h
    simp only [applyEvents]
    rw [ih _ (fun x hx => h x (List.mem_cons_of_mem _ hx)),
      lastNum_applyEvent L e d (h e (List.mem_cons_self _ _))]

theorem lastNum_receive_measurement (L : PacketLayout) (r : ReadResult) (d : GSkipBaseDevice)
    (mgr : LSkipMgr) (hd : d.m_pOSData = some mgr) (hr : isMeasurementRead L r) :
    (receive L r d).lastNumMeasurementsInPacket = some (nMeasurementsInPacket L r.buf) := by
  simp only [receive, hd, lastNumMeasurementsInPacket, Option.map_some']
  rw [listenBody_meas L r _ hr]

theorem OSMeasurementPacketsAvailable_eq (d : GSkipBaseDevice) (mgr : LSkipMgr)
    (hd : d.m_pOSData = some mgr) :
    (d.OSMeasurementPacketsAvailable ⟨true, true⟩).1 =
        (mgr.m_pMesBuf.NumRecsAvailable mgr.mutexObj).1 ∧
      (d.OSMeasurementPacketsAvailable ⟨true, true⟩).2.1 = mgr.m_lastNumMeasurementsInPacket := by
  simp [OSMeasurementPacketsAvailable, hd, lockAndCheck]

/-- A read that asks for at least 1999 packets empties the measurement
buffer. -/
theorem OSReadMeasurementPackets_empties (d : GSkipBaseDevice) (h : d.IsOpen)
    (pBuffer : Nat → GSkipPacket) (n nb : Int) (hn : 1999 ≤ n) (hnb : 1999 ≤ nb) :
    ∃ mgr1, (d.OSReadMeasurementPackets ⟨true, true⟩ pBuffer n nb).dev.m_pOSData = some mgr1 ∧
      ∀ mtx, (mgr1.m_pMesBuf.NumRecsAvailable mtx).1 = 0 := by
  obtain ⟨mgr, hd, hIm, hBm, hIc, hBc⟩ := h
  obtain ⟨k, hk, _, _, _, hc, hI, hB⟩ := readLoop_from_zero hIm hBm mgr.mutexObj pBuffer n nb
  have hdev := OSReadMeasurementPackets_dev d mgr hd ⟨true, true⟩ pBuffer n nb
  rw [if_pos ⟨rfl, rfl⟩] at hdev
  refine ⟨_, hdev, ?_⟩
  · intro mtx
    dsimp only
    rw [NumRecsAvailable_fst _ mtx hB, hI.alloc, ← contents_length hI, hc]
    have h1 := hIm.ringDist_le
    have h0 := hIm.ringDist_nonneg
    have hl := contents_length hIm
    rw [NumRecsAvailable_fst _ _ hBm, hIm.alloc] at hk
    have hkk : (k : Int) = ringDist 2000 mgr.m_pMesBuf.m_nFirstRec mgr.m_pMesBuf.m_nNextRec := by
      rw [hk]
      have e1 : min n nb ≥ 1999 := le_min hn hnb
      rw [max_eq_right (by omega), min_eq_right (by omega)]
    simp only [List.length_drop]
    omega

end GSkipBaseDevice

/-! ## The claims -/

open LSkipPacketCircularBuffer

/-- C1: take a mutex-bound buffer of capacity `C` that satisfies the index
invariant (so `C >= 1`) and is empty, push the packets `ps` with `AddRec` and
then call `RetrieveRec` until it returns `false`.  The calls return exactly the
last `min n (C-1)` packets of `ps` (with `n` the length of `ps`) in the order
they were pushed, the drain ends because `RetrieveRec` returned `false` (one
more call returns `false` again), and when `n <= C-1` the packets returned are
all of `ps`. -/
theorem C1_drain_after_pushes (C : Int) (b : LSkipPacketCircularBuffer) (mtx : OSMutexObj)
    (hInv : Inv C b) (hBound : Bound b) (hEmpty : (b.NumRecsAvailable mtx).1 = 0)
    (ps : List GSkipPacket) :
    ∃ b1 mtx1,
      drain (addAll b mtx ps).1 (addAll b mtx ps).2 =
          some (ps.drop (ps.length - min ps.length (C - 1).toNat), b1, mtx1) ∧
        (b1.RetrieveRec mtx1).1 = false ∧
        (ps.length ≤ (C - 1).toNat →
          ps.drop (ps.length - min ps.length (C - 1).toNat) = ps) := by
  have hI := Inv_addAll ps b mtx hInv
  have hB := Bound_addAll ps b mtx hBound
  obtain ⟨m1, hm1⟩ := drain_eq hI hB (addAll b mtx ps).2
  have hc := contents_addAll ps b mtx hInv hBound
  have hz : ringDist b.m_nRecsAllocated b.m_nFirstRec b.m_nNextRec = 0 := by
    rw [← NumRecsAvailable_fst b mtx hBound]; exact hEmpty
  rw [contents_of_zero hz, List.nil_append] at hc
  have hidx : ps.length - min ps.length (C - 1).toNat = ps.length - (C - 1).toNat := by omega
  refine ⟨{ (addAll b mtx ps).1 with m_nFirstRec := (addAll b mtx ps).1.m_nNextRec },
    m1, ?_, ?_, ?_⟩
  · rw [hm1, hc, hidx]
  · have hB1 : Bound
        ({ (addAll b mtx ps).1 with m_nFirstRec := (addAll b mtx ps).1.m_nNextRec } :
          LSkipPacketCircularBuffer) := hB
    rw [RetrieveRec_flag _ m1 hB1]
    simp [ringDist]
  · intro hle
    have : ps.length - min ps.length (C - 1).toNat = 0 := by omega
    rw [this, List.drop_zero]

/-- C1 at a buffer of capacity 3 and four pushes: the drain returns the last
two packets. -/
theorem C1_drain_after_pushes_witness :
    ∃ b1 mtx1,
      drain (addAll (fresh 3) ⟨0, 0⟩ [⟨[1]⟩, ⟨[2]⟩, ⟨[3]⟩, ⟨[4]⟩]).1
          (addAll (fresh 3) ⟨0, 0⟩ [⟨[1]⟩, ⟨[2]⟩, ⟨[3]⟩, ⟨[4]⟩]).2 =
          some (([⟨[1]⟩, ⟨[2]⟩, ⟨[3]⟩, ⟨[4]⟩] : List GSkipPacket).drop
            (([⟨[1]⟩, ⟨[2]⟩, ⟨[3]⟩, ⟨[4]⟩] : List GSkipPacket).length -
              min ([⟨[1]⟩, ⟨[2]⟩, ⟨[3]⟩, ⟨[4]⟩] : List GSkipPacket).length ((3 : Int) - 1).toNat),
            b1, mtx1) ∧
        (b1.RetrieveRec mtx1).1 = false ∧
        (([⟨[1]⟩, ⟨[2]⟩, ⟨[3]⟩, ⟨[4]⟩] : List GSkipPacket).length ≤ ((3 : Int) - 1).toNat →
          ([⟨[1]⟩, ⟨[2]⟩, ⟨[3]⟩, ⟨[4]⟩] : List GSkipPacket).drop
            (([⟨[1]⟩, ⟨[2]⟩, ⟨[3]⟩, ⟨[4]⟩] : List GSkipPacket).length -
              min ([⟨[1]⟩, ⟨[2]⟩, ⟨[3]⟩, ⟨[4]⟩] : List GSkipPacket).length ((3 : Int) - 1).toNat) =
            [⟨[1]⟩, ⟨[2]⟩, ⟨[3]⟩, ⟨[4]⟩]) :=
  C1_drain_after_pushes 3 (fresh 3) ⟨0, 0⟩ (Inv_fresh (by decide)) (Bound_fresh 3)
    (by decide) [⟨[1]⟩, ⟨[2]⟩, ⟨[3]⟩, ⟨[4]⟩]

/-- C2: for every capacity `C >= 1` and every finite sequence of `AddRec`,
`RetrieveRec`, `NumRecsAvailable` and `Clear` calls on a freshly constructed
mutex-bound buffer, the state after the sequence (hence after every call, the
sequence being arbitrary) has `0 <= m_nFirstRec < C` and `0 <= m_nNextRec < C`,
and `NumRecsAvailable()` equals `(m_nNextRec - m_nFirstRec) mod C` and lies
between 0 and `C - 1`. -/
theorem C2_index_invariant (C : Int) (hC : 1 ≤ C) (cs : List Call) (mtx mtx1 : OSMutexObj) :
    0 ≤ (run cs (fresh C) mtx).2.1.m_nFirstRec ∧
      (run cs (fresh C) mtx).2.1.m_nFirstRec < C ∧
      0 ≤ (run cs (fresh C) mtx).2.1.m_nNextRec ∧
      (run cs (fresh C) mtx).2.1.m_nNextRec < C ∧
      ((run cs (fresh C) mtx).2.1.NumRecsAvailable mtx1).1 =
        ((run cs (fresh C) mtx).2.1.m_nNextRec - (run cs (fresh C) mtx).2.1.m_nFirstRec) % C ∧
      0 ≤ ((run cs (fresh C) mtx).2.1.NumRecsAvailable mtx1).1 ∧
      ((run cs (fresh C) mtx).2.1.NumRecsAvailable mtx1).1 ≤ C - 1 := by
  have hI := Inv_run cs (fresh C) mtx (Inv_fresh hC)
  have hB := Bound_run cs (fresh C) mtx (Bound_fresh C)
  have hn := NumRecsAvailable_fst _ mtx1 hB
  rw [hI.alloc] at hn
  refine ⟨hI.first_nonneg, hI.first_lt, hI.next_nonneg, hI.next_lt, ?_, ?_, ?_⟩
  · rw [hn]
    exact ringDist_eq_emod hI.first_nonneg hI.first_lt hI.next_nonneg hI.next_lt
  · rw [hn]; exact hI.ringDist_nonneg
  · rw [hn]; exact hI.ringDist_le

/-- C2 on a buffer of capacity 3 after a sequence of calls that overflows the
buffer, wraps both indices and clears. -/
theorem C2_index_invariant_witness :
    0 ≤ (run [Call.AddRec ⟨[1]⟩, Call.AddRec ⟨[2]⟩, Call.AddRec ⟨[3]⟩, Call.RetrieveRec,
          Call.AddRec ⟨[4]⟩, Call.Clear, Call.AddRec ⟨[5]⟩] (fresh 3) ⟨0, 0⟩).2.1.m_nFirstRec ∧
      (run [Call.AddRec ⟨[1]⟩, Call.AddRec ⟨[2]⟩, Call.AddRec ⟨[3]⟩, Call.RetrieveRec,
          Call.AddRec ⟨[4]⟩, Call.Clear, Call.AddRec ⟨[5]⟩] (fresh 3) ⟨0, 0⟩).2.1.m_nFirstRec < 3 ∧
      0 ≤ (run [Call.AddRec ⟨[1]⟩, Call.AddRec ⟨[2]⟩, Call.AddRec ⟨[3]⟩, Call.RetrieveRec,
          Call.AddRec ⟨[4]⟩, Call.Clear, Call.AddRec ⟨[5]⟩] (fresh 3) ⟨0, 0⟩).2.1.m_nNextRec ∧
      (run [Call.AddRec ⟨[1]⟩, Call.AddRec ⟨[2]⟩, Call.AddRec ⟨[3]⟩, Call.RetrieveRec,
          Call.AddRec ⟨[4]⟩, Call.Clear, Call.AddRec ⟨[5]⟩] (fresh 3) ⟨0, 0⟩).2.1.m_nNextRec < 3 :=
  have h := C2_index_invariant 3 (by decide)
    [Call.AddRec ⟨[1]⟩, Call.AddRec ⟨[2]⟩, Call.AddRec ⟨[3]⟩, Call.RetrieveRec,
      Call.AddRec ⟨[4]⟩, Call.Clear, Call.AddRec ⟨[5]⟩] ⟨0, 0⟩ ⟨0, 0⟩
  ⟨h.1, h.2.1, h.2.2.1, h.2.2.2.1⟩

/-- C3 (as stated, for capacity 1): on a buffer of capacity 1 the call sequence
`AddRec p; NumRecsAvailable()` hands back 0 from the buffer and 1 from the
reference queue. -/
theorem C3_capacity_one_counterexample :
    ¬ (run [Call.AddRec ⟨[1]⟩, Call.NumRecsAvailable] (fresh 1) ⟨0, 0⟩).1 =
      (RefQueue.run 1 [Call.AddRec ⟨[1]⟩, Call.NumRecsAvailable] []).1 := by
  decide

/-- C3 (amended to `C >= 2`): for every capacity `C >= 2` and every finite
sequence of `AddRec`/`RetrieveRec`/`Clear`/`NumRecsAvailable` calls on a fresh
mutex-bound buffer, every call hands back exactly what the reference queue
hands back (the reference queue appends on push, drops its head first when it
already holds `C - 1` packets, pops its head or nothing, reports its length and
becomes empty on clear); afterwards the unread records of the buffer, obtained
by draining it, are the reference queue; and `RetrieveRec` on an empty buffer
leaves the buffer unchanged. -/
theorem C3_refines_reference_queue (C : Int) (hC : 2 ≤ C) (cs : List Call) (mtx : OSMutexObj) :
    (run cs (fresh C) mtx).1 = (RefQueue.run C cs []).1 ∧
      (∃ b1 mtx1, drain (run cs (fresh C) mtx).2.1 (run cs (fresh C) mtx).2.2 =
        some ((RefQueue.run C cs []).2, b1, mtx1)) ∧
      ((RefQueue.run C cs []).2 = [] →
        ∀ m, ((run cs (fresh C) mtx).2.1.RetrieveRec m).2.2.1 = (run cs (fresh C) mtx).2.1) := by
  have hI := Inv_run cs (fresh C) mtx (Inv_fresh (by omega))
  have hB := Bound_run cs (fresh C) mtx (Bound_fresh C)
  obtain ⟨h1, h2⟩ := run_refines hC cs (fresh C) mtx (Inv_fresh (by omega)) (Bound_fresh C)
  rw [contents_fresh] at h1 h2
  refine ⟨h1, ?_, ?_⟩
  · obtain ⟨m1, hm1⟩ := drain_eq hI hB (run cs (fresh C) mtx).2.2
    exact ⟨_, m1, by rw [hm1, h2]⟩
  · intro he m
    rw [← h2] at he
    have hl := contents_length hI
    rw [he] at hl
    rw [RetrieveRec_buf _ m hB, hI.alloc, ← hl]
    simp

/-- C3 (amended) at capacity 2, on a sequence that overflows and wraps. -/
theorem C3_refines_reference_queue_witness :
    (run [Call.AddRec ⟨[1]⟩, Call.AddRec ⟨[2]⟩, Call.RetrieveRec, Call.NumRecsAvailable,
          Call.AddRec ⟨[3]⟩, Call.RetrieveRec, Call.RetrieveRec, Call.Clear]
        (fresh 2) ⟨0, 0⟩).1 =
      (RefQueue.run 2 [Call.AddRec ⟨[1]⟩, Call.AddRec ⟨[2]⟩, Call.RetrieveRec,
          Call.NumRecsAvailable, Call.AddRec ⟨[3]⟩, Call.RetrieveRec, Call.RetrieveRec,
          Call.Clear] []).1 :=
  (C3_refines_reference_queue 2 (by decide)
    [Call.AddRec ⟨[1]⟩, Call.AddRec ⟨[2]⟩, Call.RetrieveRec, Call.NumRecsAvailable,
      Call.AddRec ⟨[3]⟩, Call.RetrieveRec, Call.RetrieveRec, Call.Clear] ⟨0, 0⟩).1

/-- C7 (as stated, without the session being open): take the measurement buffer
of a manager that was opened and closed again.  After `AddRec p` the buffer
reports no record, so it is not true that it holds at least one record with `p`
the newest. -/
theorem C7_closed_session_counterexample :
    ¬ (1 ≤ ((((LSkipMgr.new.Open ⟨OSMutex.handle, 3, true, true⟩).2.Close).2.m_pMesBuf.AddRec
          ⟨[1, 0, 0, 0, 0, 0, 0, 0]⟩ ⟨0, 0⟩).1.NumRecsAvailable ⟨0, 0⟩).1 ∧
      ∃ l b1 mtx1,
        drain (((LSkipMgr.new.Open ⟨OSMutex.handle, 3, true, true⟩).2.Close).2.m_pMesBuf.AddRec
          ⟨[1, 0, 0, 0, 0, 0, 0, 0]⟩ ⟨0, 0⟩).1 ⟨0, 0⟩ = some (l, b1, mtx1) ∧
        l.getLast? = some ⟨[1, 0, 0, 0, 0, 0, 0, 0]⟩) := by
  intro h
  exact absurd h.1 (by decide)

/-- A buffer without a mutex: `AddRec` changes neither the buffer nor the
mutex object, `NumRecsAvailable` returns 0 and `RetrieveRec` returns `false`
and stores nothing. -/
theorem unbound_methods (u : LSkipPacketCircularBuffer) (hu : ¬ Bound u) (p : GSkipPacket)
    (mtx : OSMutexObj) :
    u.AddRec p mtx = (u, mtx) ∧ u.NumRecsAvailable mtx = (0, mtx) ∧
      u.RetrieveRec mtx = (false, none, u, mtx) ∧ u.Clear mtx = (u, mtx) := by
  unfold Bound at hu
  simp only [ne_eq, not_not] at hu
  refine ⟨?_, ?_, ?_, ?_⟩
  · simp [AddRec, hu]
  · simp [NumRecsAvailable, hu]
  · simp [RetrieveRec, hu]
  · simp [Clear, hu]

/-- The buffers of a manager are bound to the mutex by a successful `Open`. -/
theorem Bound_after_Open (s : LSkipMgr) (o : OpenOutcome)
    (hok : (s.Open o).1 = kResponse_OK) :
    Bound (s.Open o).2.m_pMesBuf ∧ Bound (s.Open o).2.m_pCmdBuf := by
  unfold LSkipMgr.Open at hok ⊢
  by_cases h1 : o.OSCreateMutex = OSMutex.null
  · simp [h1] at hok
  · by_cases h2 : o.fd = -1
    · simp [h1, h2] at hok
    · by_cases h3 : o.threadAllocated
      · by_cases h4 : o.OSStartThread
        · simp only [h1, h2, h3, h4, ne_eq, not_false_eq_true, if_true, not_true_eq_false,
            if_false]
          exact ⟨h1, h1⟩
        · simp [h1, h2, h3, h4] at hok
      · simp [h1, h2, h3] at hok

/-- C7 (amended to mutex-bound buffers): (a) for every buffer `b` of capacity
`C >= 2` that satisfies the index invariant and is bound to the queue mutex and
every packet `p`, after `AddRec(p)` the buffer reports at least one record and
`p` is the last packet returned when the buffer is then drained with
`RetrieveRec`; (b) on every buffer `u` that has no mutex `AddRec(p)` stores
nothing: the buffer and the mutex object are what they were, and afterwards
`NumRecsAvailable()` is 0, `RetrieveRec` returns `false` with no packet and the
drain (of a buffer with at least one cell) returns no packet; (c) the two buffers of a manager have no mutex when the
manager has just been constructed and after every `Close`, and they are bound
after every `Open` that returns `kResponse_OK`. -/
theorem C7_AddRec_newest_when_bound (C : Int) (hC : 2 ≤ C) (b : LSkipPacketCircularBuffer)
    (hInv : Inv C b) (hBound : Bound b) (u : LSkipPacketCircularBuffer) (hu : ¬ Bound u)
    (s : LSkipMgr) (p : GSkipPacket) (mtx mtx1 mtx2 : OSMutexObj) :
    (1 ≤ ((b.AddRec p mtx).1.NumRecsAvailable mtx1).1 ∧
      ∃ l b1 mtx3, drain (b.AddRec p mtx).1 mtx2 = some (l, b1, mtx3) ∧
        l.getLast? = some p) ∧
    (u.AddRec p mtx = (u, mtx) ∧
      (u.AddRec p mtx).1.NumRecsAvailable mtx1 = (0, mtx1) ∧
      (u.AddRec p mtx).1.RetrieveRec mtx2 = (false, none, u, mtx2) ∧
      (1 ≤ u.m_nRecsAllocated → drain (u.AddRec p mtx).1 mtx2 = some ([], u, mtx2))) ∧
    (¬ Bound LSkipMgr.new.m_pMesBuf ∧ ¬ Bound LSkipMgr.new.m_pCmdBuf ∧
      ¬ Bound s.Close.2.m_pMesBuf ∧ ¬ Bound s.Close.2.m_pCmdBuf ∧
      ∀ o : OpenOutcome, (s.Open o).1 = kResponse_OK →
        Bound (s.Open o).2.m_pMesBuf ∧ Bound (s.Open o).2.m_pCmdBuf) := by
  have hI := Inv_AddRec hInv p mtx
  have hB := Bound_AddRec hBound p mtx
  have hl1 := contents_length hI
  have hlast := LSkipMgr.contents_AddRec_getLast hC hInv hBound p mtx
  refine ⟨⟨?_, ?_⟩, ?_, ?_⟩
  · rw [NumRecsAvailable_fst _ mtx1 hB, hI.alloc, ← hl1]
    cases hcs : contents (b.AddRec p mtx).1 with
    | nil => rw [hcs] at hlast; simp at hlast
    | cons x xs => simp
  · obtain ⟨m3, hm3⟩ := drain_eq hI hB mtx2
    exact ⟨_, _, m3, hm3, hlast⟩
  · obtain ⟨ha, _, _, _⟩ := unbound_methods u hu p mtx
    obtain ⟨_, hn, _, _⟩ := unbound_methods u hu p mtx1
    obtain ⟨_, _, hr, _⟩ := unbound_methods u hu p mtx2
    rw [ha]
    refine ⟨rfl, hn, hr, ?_⟩
    intro hcap
    obtain ⟨k, hk⟩ : ∃ k : Nat, u.m_nRecsAllocated.toNat = k + 1 :=
      ⟨u.m_nRecsAllocated.toNat - 1, by omega⟩
    show drain u mtx2 = some ([], u, mtx2)
    rw [drain, hk, drainLoop, hr]
  · refine ⟨by decide, by decide, ?_, ?_, fun o hok => Bound_after_Open s o hok⟩
    · simp [Bound, LSkipMgr.Close, SetQueueAccessMutex]
    · simp [Bound, LSkipMgr.Close, SetQueueAccessMutex]

/-- C7 (amended) on the full buffer of capacity 3 holding two packets, and on
the measurement buffer of the example session after `Close`. -/
theorem C7_AddRec_newest_when_bound_witness :
    (1 ≤ (((addAll (fresh 3) ⟨0, 0⟩ [⟨[1]⟩, ⟨[2]⟩]).1.AddRec ⟨[3]⟩ ⟨0, 0⟩).1.NumRecsAvailable
        ⟨0, 0⟩).1 ∧
      ∃ l b1 mtx3,
        drain ((addAll (fresh 3) ⟨0, 0⟩ [⟨[1]⟩, ⟨[2]⟩]).1.AddRec ⟨[3]⟩ ⟨0, 0⟩).1 ⟨0, 0⟩ =
          some (l, b1, mtx3) ∧
        l.getLast? = some ⟨[3]⟩) ∧
    ¬ Bound exampleSession.Close.2.m_pMesBuf ∧
    exampleSession.Close.2.m_pMesBuf.AddRec ⟨[3]⟩ ⟨0, 0⟩ =
      (exampleSession.Close.2.m_pMesBuf, ⟨0, 0⟩) ∧
    (exampleSession.Close.2.m_pMesBuf.AddRec ⟨[3]⟩ ⟨0, 0⟩).1.NumRecsAvailable ⟨0, 0⟩ =
      (0, ⟨0, 0⟩) ∧
    drain (exampleSession.Close.2.m_pMesBuf.AddRec ⟨[3]⟩ ⟨0, 0⟩).1 ⟨0, 0⟩ =
      some ([], exampleSession.Close.2.m_pMesBuf, ⟨0, 0⟩) :=
  have h := C7_AddRec_newest_when_bound 3 (by decide)
    (addAll (fresh 3) ⟨0, 0⟩ [⟨[1]⟩, ⟨[2]⟩]).1
    (Inv_addAll _ _ _ (Inv_fresh (by decide))) (Bound_addAll _ _ _ (Bound_fresh 3))
    exampleSession.Close.2.m_pMesBuf (by decide) exampleSession
    ⟨[3]⟩ ⟨0, 0⟩ ⟨0, 0⟩ ⟨0, 0⟩
  ⟨h.1, by decide, h.2.1.1, h.2.1.2.1, h.2.1.2.2.2 (by decide)⟩

/-- C4: on a device whose session is open, with the device lock granted and
`IsOKToUse` true, `OSReadMeasurementPackets` called with requested count `n`
and destination size `nb` returns `kResponse_OK`, leaves
`k = min (max 0 (min n nb)) available` in `*pIONumPackets`, stores in slots
`0 .. k-1` of the destination the `k` oldest unread measurement packets in FIFO
order (`q` is the list a drain of the buffer would have returned), leaves the
other slots alone, leaves the remaining packets `q.drop k` in the buffer in
their order and leaves the command-response buffer as it was.  The same holds
for `OSReadCmdRespPackets` with the two buffers exchanged. -/
theorem C4_nonblocking_drain (d : GSkipBaseDevice) (mgr : LSkipMgr)
    (hd : d.m_pOSData = some mgr) (hopen : mgr.IsOpen)
    (pBuffer : Nat → GSkipPacket) (n nb : Int) :
    (∃ (k : Nat) (q : List GSkipPacket),
      (k : Int) = min (max 0 (min n nb)) (mgr.m_pMesBuf.NumRecsAvailable mgr.mutexObj).1 ∧
      (∃ b1 m1, drain mgr.m_pMesBuf mgr.mutexObj = some (q, b1, m1)) ∧
      (d.OSReadMeasurementPackets ⟨true, true⟩ pBuffer n nb).nResult = kResponse_OK ∧
      (d.OSReadMeasurementPackets ⟨true, true⟩ pBuffer n nb).pIONumPackets = k ∧
      (∀ i : Nat, i < k →
        q[i]? = some ((d.OSReadMeasurementPackets ⟨true, true⟩ pBuffer n nb).pBuffer i)) ∧
      (∀ i : Nat, k ≤ i →
        (d.OSReadMeasurementPackets ⟨true, true⟩ pBuffer n nb).pBuffer i = pBuffer i) ∧
      ∃ mgr1, (d.OSReadMeasurementPackets ⟨true, true⟩ pBuffer n nb).dev.m_pOSData = some mgr1 ∧
        (∃ b2 m2, drain mgr1.m_pMesBuf mgr1.mutexObj = some (q.drop k, b2, m2)) ∧
        mgr1.m_pCmdBuf = mgr.m_pCmdBuf) ∧
    (∃ (k : Nat) (q : List GSkipPacket),
      (k : Int) = min (max 0 (min n nb)) (mgr.m_pCmdBuf.NumRecsAvailable mgr.mutexObj).1 ∧
      (∃ b1 m1, drain mgr.m_pCmdBuf mgr.mutexObj = some (q, b1, m1)) ∧
      (d.OSReadCmdRespPackets ⟨true, true⟩ pBuffer n nb).nResult = kResponse_OK ∧
      (d.OSReadCmdRespPackets ⟨true, true⟩ pBuffer n nb).pIONumPackets = k ∧
      (∀ i : Nat, i < k →
        q[i]? = some ((d.OSReadCmdRespPackets ⟨true, true⟩ pBuffer n nb).pBuffer i)) ∧
      (∀ i : Nat, k ≤ i →
        (d.OSReadCmdRespPackets ⟨true, true⟩ pBuffer n nb).pBuffer i = pBuffer i) ∧
      ∃ mgr1, (d.OSReadCmdRespPackets ⟨true, true⟩ pBuffer n nb).dev.m_pOSData = some mgr1 ∧
        (∃ b2 m2, drain mgr1.m_pCmdBuf mgr1.mutexObj = some (q.drop k, b2, m2)) ∧
        mgr1.m_pMesBuf = mgr.m_pMesBuf) := by
  obtain ⟨hIm, hBm, hIc, hBc⟩ := hopen
  constructor
  · obtain ⟨k, hk, hn, hw, hrest, hc, hI, hB⟩ :=
      GSkipBaseDevice.readLoop_from_zero hIm hBm mgr.mutexObj pBuffer n nb
    obtain ⟨m1, hm1⟩ := drain_eq hIm hBm mgr.mutexObj
    obtain ⟨m2, hm2⟩ := drain_eq hI hB
      (GSkipBaseDevice.readLoop (if n > nb then nb else n) (if n > nb then nb else n).toNat
        { buf := mgr.m_pMesBuf, mtx := mgr.mutexObj, pBuffer := pBuffer, nPacketsRead := 0 }).mtx
    refine ⟨k, contents mgr.m_pMesBuf, hk, ⟨_, m1, hm1⟩, ?_, ?_, ?_, ?_, ?_⟩
    · simp [GSkipBaseDevice.OSReadMeasurementPackets, hd, GSkipBaseDevice.lockAndCheck]
    · simp only [GSkipBaseDevice.OSReadMeasurementPackets, hd, GSkipBaseDevice.lockAndCheck,
        if_true]
      exact hn
    · intro i hi
      simp only [GSkipBaseDevice.OSReadMeasurementPackets, hd, GSkipBaseDevice.lockAndCheck,
        if_true]
      exact hw i hi
    · intro i hi
      simp only [GSkipBaseDevice.OSReadMeasurementPackets, hd, GSkipBaseDevice.lockAndCheck,
        if_true]
      exact hrest i hi
    · simp only [GSkipBaseDevice.OSReadMeasurementPackets, hd, GSkipBaseDevice.lockAndCheck,
        if_true, GSkipBaseDevice.UnlockDevice]
      refine ⟨_, rfl, ?_, rfl⟩
      dsimp only
      rw [← hc]
      exact ⟨_, m2, hm2⟩
  · obtain ⟨k, hk, hn, hw, hrest, hc, hI, hB⟩ :=
      GSkipBaseDevice.readLoop_from_zero hIc hBc mgr.mutexObj pBuffer n nb
    obtain ⟨m1, hm1⟩ := drain_eq hIc hBc mgr.mutexObj
    obtain ⟨m2, hm2⟩ := drain_eq hI hB
      (GSkipBaseDevice.readLoop (if n > nb then nb else n) (if n > nb then nb else n).toNat
        { buf := mgr.m_pCmdBuf, mtx := mgr.mutexObj, pBuffer := pBuffer, nPacketsRead := 0 }).mtx
    refine ⟨k, contents mgr.m_pCmdBuf, hk, ⟨_, m1, hm1⟩, ?_, ?_, ?_, ?_, ?_⟩
    · simp [GSkipBaseDevice.OSReadCmdRespPackets, hd, GSkipBaseDevice.lockAndCheck]
    · simp only [GSkipBaseDevice.OSReadCmdRespPackets, hd, GSkipBaseDevice.lockAndCheck,
        if_true]
      exact hn
    · intro i hi
      simp only [GSkipBaseDevice.OSReadCmdRespPackets, hd, GSkipBaseDevice.lockAndCheck,
        if_true]
      exact hw i hi
    · intro i hi
      simp only [GSkipBaseDevice.OSReadCmdRespPackets, hd, GSkipBaseDevice.lockAndCheck,
        if_true]
      exact hrest i hi
    · simp only [GSkipBaseDevice.OSReadCmdRespPackets, hd, GSkipBaseDevice.lockAndCheck,
        if_true, GSkipBaseDevice.UnlockDevice]
      refine ⟨_, rfl, ?_, rfl⟩
      dsimp only
      rw [← hc]
      exact ⟨_, m2, hm2⟩

/-- C4 on the busy example device: a read of at most 5 packets into a
destination of 3 slots. -/
theorem C4_nonblocking_drain_witness :
    busyDevice.m_pOSData = some busySession ∧ busySession.IsOpen ∧
    ∃ (k : Nat) (q : List GSkipPacket),
      (k : Int) = min (max 0 (min 5 3))
        (busySession.m_pMesBuf.NumRecsAvailable busySession.mutexObj).1 ∧
      (∃ b1 m1, drain busySession.m_pMesBuf busySession.mutexObj = some (q, b1, m1)) ∧
      (busyDevice.OSReadMeasurementPackets ⟨true, true⟩ (fun _ => default) 5 3).nResult =
        kResponse_OK ∧
      (busyDevice.OSReadMeasurementPackets ⟨true, true⟩ (fun _ => default) 5 3).pIONumPackets =
        k ∧
      (∀ i : Nat, i < k → q[i]? = some
        ((busyDevice.OSReadMeasurementPackets ⟨true, true⟩ (fun _ => default) 5 3).pBuffer i)) ∧
      (∀ i : Nat, k ≤ i →
        (busyDevice.OSReadMeasurementPackets ⟨true, true⟩ (fun _ => default) 5 3).pBuffer i =
          default) ∧
      ∃ mgr1,
        (busyDevice.OSReadMeasurementPackets ⟨true, true⟩ (fun _ => default) 5 3).dev.m_pOSData =
          some mgr1 ∧
        (∃ b2 m2, drain mgr1.m_pMesBuf mgr1.mutexObj = some (q.drop k, b2, m2)) ∧
        mgr1.m_pCmdBuf = busySession.m_pCmdBuf :=
  ⟨rfl, LSkipMgr.IsOpen_busySession,
    (C4_nonblocking_drain busyDevice busySession rfl LSkipMgr.IsOpen_busySession
      (fun _ => default) 5 3).1⟩

/-- C5: for every read result handled by one pass of the receiver's loop body
on an open session: (i) a full 8 byte packet whose byte 0 has the
`SKIP_MASK_INPUT_PACKET_TYPE` bit set is pushed with `AddRec` onto the
command-response buffer, where it is then the newest record, and the
measurement buffer and `m_lastNumMeasurementsInPacket` are unchanged; (ii) a
full 8 byte packet with the bit clear is pushed onto the measurement buffer,
where it is then the newest record, the command-response buffer is unchanged and
`m_lastNumMeasurementsInPacket` becomes the packet's `nMeasurementsInPacket`;
(iii) a read of any other length changes neither buffer nor
`m_lastNumMeasurementsInPacket`. -/
theorem C5_exact_demultiplexing (L : PacketLayout) (s : LSkipMgr.ListenState)
    (hopen : s.mgr.IsOpen) (r : ReadResult) :
    (LSkipMgr.isCmdRespRead L r →
      (LSkipMgr.listenBody L r s).mgr.m_pCmdBuf =
          (s.mgr.m_pCmdBuf.AddRec r.buf s.mgr.mutexObj).1 ∧
        (∃ l b1 m1,
          drain (LSkipMgr.listenBody L r s).mgr.m_pCmdBuf
            (LSkipMgr.listenBody L r s).mgr.mutexObj = some (l, b1, m1) ∧
          l.getLast? = some r.buf) ∧
        (LSkipMgr.listenBody L r s).mgr.m_pMesBuf = s.mgr.m_pMesBuf ∧
        (LSkipMgr.listenBody L r s).mgr.m_lastNumMeasurementsInPacket =
          s.mgr.m_lastNumMeasurementsInPacket) ∧
    (LSkipMgr.isMeasurementRead L r →
      (LSkipMgr.listenBody L r s).mgr.m_pMesBuf =
          (s.mgr.m_pMesBuf.AddRec r.buf s.mgr.mutexObj).1 ∧
        (∃ l b1 m1,
          drain (LSkipMgr.listenBody L r s).mgr.m_pMesBuf
            (LSkipMgr.listenBody L r s).mgr.mutexObj = some (l, b1, m1) ∧
          l.getLast? = some r.buf) ∧
        (LSkipMgr.listenBody L r s).mgr.m_pCmdBuf = s.mgr.m_pCmdBuf ∧
        (LSkipMgr.listenBody L r s).mgr.m_lastNumMeasurementsInPacket =
          nMeasurementsInPacket L r.buf) ∧
    (r.nNumberOfBytesRead ≠ 8 →
      (LSkipMgr.listenBody L r s).mgr.m_pMesBuf = s.mgr.m_pMesBuf ∧
        (LSkipMgr.listenBody L r s).mgr.m_pCmdBuf = s.mgr.m_pCmdBuf ∧
        (LSkipMgr.listenBody L r s).mgr.m_lastNumMeasurementsInPacket =
          s.mgr.m_lastNumMeasurementsInPacket) := by
  obtain ⟨hIm, hBm, hIc, hBc⟩ := hopen
  refine ⟨?_, ?_, ?_⟩
  · intro h
    rw [LSkipMgr.listenBody_cmd L r s h]
    refine ⟨rfl, ?_, rfl, rfl⟩
    obtain ⟨m1, hm1⟩ := drain_eq (Inv_AddRec hIc r.buf s.mgr.mutexObj)
      (Bound_AddRec hBc r.buf s.mgr.mutexObj) (s.mgr.m_pCmdBuf.AddRec r.buf s.mgr.mutexObj).2
    exact ⟨_, _, m1, hm1, LSkipMgr.contents_AddRec_getLast (by decide) hIc hBc _ _⟩
  · intro h
    rw [LSkipMgr.listenBody_meas L r s h]
    refine ⟨rfl, ?_, rfl, rfl⟩
    obtain ⟨m1, hm1⟩ := drain_eq (Inv_AddRec hIm r.buf s.mgr.mutexObj)
      (Bound_AddRec hBm r.buf s.mgr.mutexObj) (s.mgr.m_pMesBuf.AddRec r.buf s.mgr.mutexObj).2
    exact ⟨_, _, m1, hm1, LSkipMgr.contents_AddRec_getLast (by decide) hIm hBm _ _⟩
  · intro h
    rw [LSkipMgr.listenBody_short L r s h]
    exact ⟨rfl, rfl, rfl⟩

/-- C5 on the example session: a command-response packet goes to the
command-response buffer only. -/
theorem C5_exact_demultiplexing_witness :
    exampleSession.IsOpen ∧ LSkipMgr.isCmdRespRead exampleLayout cmdRespRead ∧
      (LSkipMgr.listenBody exampleLayout cmdRespRead
          { mgr := exampleSession, err_count := 0, count := 0, input := [] }).mgr.m_pCmdBuf =
        (exampleSession.m_pCmdBuf.AddRec cmdRespRead.buf exampleSession.mutexObj).1 ∧
      (LSkipMgr.listenBody exampleLayout cmdRespRead
          { mgr := exampleSession, err_count := 0, count := 0, input := [] }).mgr.m_pMesBuf =
        exampleSession.m_pMesBuf ∧
      (LSkipMgr.listenBody exampleLayout cmdRespRead
          { mgr := exampleSession, err_count := 0, count := 0,
            input := [] }).mgr.m_lastNumMeasurementsInPacket =
        exampleSession.m_lastNumMeasurementsInPacket :=
  have h := (C5_exact_demultiplexing exampleLayout
    { mgr := exampleSession, err_count := 0, count := 0, input := [] }
    LSkipMgr.IsOpen_exampleSession cmdRespRead).1 (by decide)
  ⟨LSkipMgr.IsOpen_exampleSession, by decide, h.1, h.2.2.1, h.2.2.2⟩

/-- C6: (a) when the device lock is granted and `IsOKToUse` is true,
`OSMeasurementPacketsAvailable` returns `NumRecsAvailable()` of the measurement
buffer together with `m_lastNumMeasurementsInPacket`; (b)
`OSReadMeasurementPackets` never changes `m_lastNumMeasurementsInPacket`; (c) on
an open device, after the receiver has routed a measurement packet `r`, followed
by any events that are not the reception of another measurement packet (reads
by the caller, command-response packets, short reads), a read that asks for at
least 1999 packets leaves the measurement buffer empty, and
`OSMeasurementPacketsAvailable` then reports count 0 together with the sample
count of `r`. -/
theorem C6_last_count_survives_drain (L : PacketLayout) (d : GSkipBaseDevice)
    (hopen : d.IsOpen) (pre post : List GSkipBaseDevice.Event) (r : ReadResult)
    (hr : LSkipMgr.isMeasurementRead L r)
    (hpost : ∀ e ∈ post, GSkipBaseDevice.Event.notMeasurement L e)
    (pBuffer : Nat → GSkipPacket) (n nb : Int) (hn : 1999 ≤ n) (hnb : 1999 ≤ nb) :
    (∀ (d1 : GSkipBaseDevice) (mgr : LSkipMgr), d1.m_pOSData = some mgr →
      (d1.OSMeasurementPacketsAvailable ⟨true, true⟩).1 =
          (mgr.m_pMesBuf.NumRecsAvailable mgr.mutexObj).1 ∧
        (d1.OSMeasurementPacketsAvailable ⟨true, true⟩).2.1 =
          mgr.m_lastNumMeasurementsInPacket) ∧
    (∀ (d1 : GSkipBaseDevice) (g : GuardOutcome) (p : Nat → GSkipPacket) (n1 nb1 : Int),
      (d1.OSReadMeasurementPackets g p n1 nb1).dev.lastNumMeasurementsInPacket =
        d1.lastNumMeasurementsInPacket) ∧
    ((((GSkipBaseDevice.applyEvents L (pre ++ GSkipBaseDevice.Event.received r :: post)
        d).OSReadMeasurementPackets ⟨true, true⟩ pBuffer n nb).dev.OSMeasurementPacketsAvailable
        ⟨true, true⟩).1 = 0 ∧
      (((GSkipBaseDevice.applyEvents L (pre ++ GSkipBaseDevice.Event.received r :: post)
        d).OSReadMeasurementPackets ⟨true, true⟩ pBuffer n nb).dev.OSMeasurementPacketsAvailable
        ⟨true, true⟩).2.1 = nMeasurementsInPacket L r.buf) := by
  refine ⟨GSkipBaseDevice.OSMeasurementPacketsAvailable_eq,
    GSkipBaseDevice.lastNum_OSReadMeasurementPackets, ?_⟩
  have hO1 := GSkipBaseDevice.IsOpen_applyEvents L pre d hopen
  obtain ⟨mgrA, hdA, _⟩ := hO1
  have hlast1 := GSkipBaseDevice.lastNum_receive_measurement L r _ mgrA hdA hr
  have hO2 := GSkipBaseDevice.IsOpen_applyEvents L
    (pre ++ GSkipBaseDevice.Event.received r :: post) d hopen
  have hlast2 : (GSkipBaseDevice.applyEvents L
      (pre ++ GSkipBaseDevice.Event.received r :: post) d).lastNumMeasurementsInPacket =
      some (nMeasurementsInPacket L r.buf) := by
    rw [GSkipBaseDevice.applyEvents_append]
    simp only [GSkipBaseDevice.applyEvents]
    rw [GSkipBaseDevice.lastNum_applyEvents L post _ hpost]
    exact hlast1
  obtain ⟨mgr1, hd1, hz⟩ :=
    GSkipBaseDevice.OSReadMeasurementPackets_empties _ hO2 pBuffer n nb hn hnb
  have hlast3 := GSkipBaseDevice.lastNum_OSReadMeasurementPackets
    (GSkipBaseDevice.applyEvents L (pre ++ GSkipBaseDevice.Event.received r :: post) d)
    ⟨true, true⟩ pBuffer n nb
  rw [hlast2] at hlast3
  simp only [GSkipBaseDevice.lastNumMeasurementsInPacket, hd1, Option.map_some',
    Option.some.injEq] at hlast3
  obtain ⟨e1, e2⟩ := GSkipBaseDevice.OSMeasurementPacketsAvailable_eq _ mgr1 hd1
  rw [e1, e2, hz, hlast3]
  exact ⟨rfl, rfl⟩

/-- C6 on the example device: a measurement packet with two samples arrives,
then a command-response packet, a read of one packet and a short read; after a
draining read the device reports no packet and a sample count of 2. -/
theorem C6_last_count_survives_drain_witness :
    exampleDevice.IsOpen ∧ LSkipMgr.isMeasurementRead exampleLayout measurementRead ∧
    ((((GSkipBaseDevice.applyEvents exampleLayout
        ([] ++ GSkipBaseDevice.Event.received measurementRead ::
          [GSkipBaseDevice.Event.received cmdRespRead,
            GSkipBaseDevice.Event.readMeasurement ⟨true, true⟩ 1 1,
            GSkipBaseDevice.Event.received shortRead])
        exampleDevice).OSReadMeasurementPackets ⟨true, true⟩ (fun _ => default) 2000
          2000).dev.OSMeasurementPacketsAvailable ⟨true, true⟩).1 = 0 ∧
      (((GSkipBaseDevice.applyEvents exampleLayout
        ([] ++ GSkipBaseDevice.Event.received measurementRead ::
          [GSkipBaseDevice.Event.received cmdRespRead,
            GSkipBaseDevice.Event.readMeasurement ⟨true, true⟩ 1 1,
            GSkipBaseDevice.Event.received shortRead])
        exampleDevice).OSReadMeasurementPackets ⟨true, true⟩ (fun _ => default) 2000
          2000).dev.OSMeasurementPacketsAvailable ⟨true, true⟩).2.1 =
        nMeasurementsInPacket exampleLayout measurementRead.buf) :=
  ⟨⟨exampleSession, rfl, LSkipMgr.IsOpen_exampleSession⟩, by decide,
    (C6_last_count_survives_drain exampleLayout exampleDevice
      ⟨exampleSession, rfl, LSkipMgr.IsOpen_exampleSession⟩ []
      [GSkipBaseDevice.Event.received cmdRespRead,
        GSkipBaseDevice.Event.readMeasurement ⟨true, true⟩ 1 1,
        GSkipBaseDevice.Event.received shortRead]
      measurementRead (by decide)
      (by
        intro e he
        simp only [List.mem_cons, List.mem_singleton, List.not_mem_nil, or_false] at he
        rcases he with rfl | rfl | rfl
        · show ¬ LSkipMgr.isMeasurementRead exampleLayout cmdRespRead
          decide
        · exact trivial
        · show ¬ LSkipMgr.isMeasurementRead exampleLayout shortRead
          decide)
      (fun _ => default) 2000 2000 (by decide) (by decide)).2.2⟩

/-- C8 (the code reports success although the open failed): the device lock is
granted and `IsOKToUse` is true; when the exclusive `open` returns -1, and also
when the receiver thread cannot be started, `LSkipMgr::Open` returns
`kResponse_Error`, yet `GSkipBaseDevice::OSOpen` returns `kResponse_OK`. -/
theorem C8_OSOpen_ignores_Open_result :
    (LSkipMgr.new.Open ⟨OSMutex.handle, -1, true, true⟩).1 = kResponse_Error ∧
      ((GSkipBaseDevice.OSInitialize ⟨none, 0⟩).2.OSOpen ⟨true, true⟩
        ⟨OSMutex.handle, -1, true, true⟩).1 = kResponse_OK ∧
      (LSkipMgr.new.Open ⟨OSMutex.handle, 3, true, false⟩).1 = kResponse_Error ∧
      ((GSkipBaseDevice.OSInitialize ⟨none, 0⟩).2.OSOpen ⟨true, true⟩
        ⟨OSMutex.handle, 3, true, false⟩).1 = kResponse_OK := by
  refine ⟨?_, ?_, ?_, ?_⟩ <;> decide

/-- C9 (the code reports success although the write failed): on the open
example device, with the device lock granted and `IsOKToUse` true,
`OSWriteCmdPackets` returns `kResponse_OK` when `write` returns -1 and when it
returns 3, a short write. -/
theorem C9_OSWriteCmdPackets_ignores_write_result :
    (exampleDevice.OSWriteCmdPackets ⟨true, true⟩ cmdRespRead.buf 1 (-1)).nResult =
        kResponse_OK ∧
      (exampleDevice.OSWriteCmdPackets ⟨true, true⟩ cmdRespRead.buf 1 (-1)).written =
        some (3, cmdRespRead.buf, -1) ∧
      (exampleDevice.OSWriteCmdPackets ⟨true, true⟩ cmdRespRead.buf 1 3).nResult =
        kResponse_OK := by
  refine ⟨?_, ?_, ?_⟩ <;> decide

/-- C10 (as stated): with 21 read results pending, each of them a full
measurement packet and `poll` reporting the descriptor readable before each
read, one run of `gListenForResponse` on the example session returns with one
read result still pending. -/
theorem C10_twenty_one_reads_counterexample :
    (LSkipMgr.gListenForResponse exampleLayout (some exampleSession) 0
        (List.replicate 21 measurementRead)).2.map (fun s => s.input) =
      some [measurementRead] := by
  simp only [LSkipMgr.gListenForResponse, Option.map_some', Option.some.injEq]
  rw [LSkipMgr.listenLoop_eq exampleLayout 20 _ (by decide) (by decide)]
  rfl

/-- C10 (amended): one run of `gListenForResponse` on input for which `poll`
reports the descriptor readable before each read handles exactly the first
`min n 20` read results of the sequence, in order, every one of them with the
loop body (a full packet is routed, a short read is counted and the loop goes
on), and then returns `kResponse_OK`, leaving the rest of the sequence pending:
the run ends when the sequence is exhausted or after 20 reads, whichever comes
first, and never because of a short read. -/
theorem C10_listen_run_handles_first_twenty (L : PacketLayout) (mgr : LSkipMgr)
    (err_count : Int) (input : List ReadResult) :
    LSkipMgr.gListenForResponse L (some mgr) err_count input =
        (kResponse_OK,
          some { LSkipMgr.listenAll L (input.take 20)
                  { mgr := mgr, err_count := err_count, count := 0, input := input } with
                 input := input.drop 20 }) ∧
      (LSkipMgr.gListenForResponse L (some mgr) err_count input).2.map (fun s => s.count) =
        some ((min input.length 20 : Nat) : Int) := by
  have h := LSkipMgr.listenLoop_eq L 20
    { mgr := mgr, err_count := err_count, count := 0, input := input } (le_refl _)
    (by show ((20 : Int) - 0).toNat ≤ 20; decide)
  have e : ((20 : Int) - 0).toNat = 20 := by decide
  dsimp only at h
  rw [e] at h
  constructor
  · simp only [LSkipMgr.gListenForResponse]
    rw [h]
  · simp only [LSkipMgr.gListenForResponse, Option.map_some', Option.some.injEq]
    rw [h]
    dsimp only
    rw [LSkipMgr.listenAll_count]
    simp [List.length_take, min_comm]

/-! ## Closing, the queue mutex and the device lock -/

namespace LSkipMgr

/-- The manager that `Close` leaves behind. -/
theorem Close_snd (s : LSkipMgr) :
    s.Close.2 =
      { m_pQueueAccessMutex := OSMutex.null
        mutexObj := s.mutexObj
        m_hDeviceID := -1
        m_pListeningThread := none
        m_pMesBuf := s.m_pMesBuf.SetQueueAccessMutex OSMutex.null
        m_pCmdBuf := s.m_pCmdBuf.SetQueueAccessMutex OSMutex.null
        m_lastNumMeasurementsInPacket := s.m_lastNumMeasurementsInPacket } := rfl

theorem SetQueueAccessMutex_twice (b : LSkipPacketCircularBuffer) (m1 m2 : OSMutex) :
    (b.SetQueueAccessMutex m1).SetQueueAccessMutex m2 = b.SetQueueAccessMutex m2 := rfl

end LSkipMgr

/-- C11: for every state of an `LSkipMgr` (never opened, open, already
closed), `Close` returns `kResponse_OK` and leaves the manager without a
receiver thread, with both ring buffers detached from the mutex, without a
mutex and with transport handle -1; a second `Close` returns `kResponse_OK`
again and leaves that state unchanged.  The same holds one level up: on a
device that has a manager, with the device lock granted and `IsOKToUse` true
both times, `OSClose` returns `kResponse_OK` and a second `OSClose` returns
`kResponse_OK` and changes nothing. -/
theorem C11_Close_idempotent (s : LSkipMgr) (d : GSkipBaseDevice) :
    s.Close.1 = kResponse_OK ∧
      s.Close.2.m_pListeningThread = none ∧
      s.Close.2.m_pMesBuf.m_pQueueAccessMutex = OSMutex.null ∧
      s.Close.2.m_pCmdBuf.m_pQueueAccessMutex = OSMutex.null ∧
      s.Close.2.m_pQueueAccessMutex = OSMutex.null ∧
      s.Close.2.m_hDeviceID = -1 ∧
      s.Close.2.Close = (kResponse_OK, s.Close.2) ∧
      (d.m_pOSData.isSome = true →
        (d.OSClose ⟨true, true⟩).1 = kResponse_OK ∧
          (d.OSClose ⟨true, true⟩).2.OSClose ⟨true, true⟩ =
            (kResponse_OK, (d.OSClose ⟨true, true⟩).2)) := by
  refine ⟨rfl, rfl, rfl, rfl, rfl, rfl, ?_, ?_⟩
  · refine Prod.ext rfl ?_
    rw [LSkipMgr.Close_snd s.Close.2, LSkipMgr.Close_snd s]
    rfl
  · intro hd
    cases hm : d.m_pOSData with
    | none => rw [hm] at hd; simp at hd
    | some mgr =>
      have h1 : d.OSClose ⟨true, true⟩ =
          (kResponse_OK, { m_pOSData := some mgr.Close.2, lockCount := d.lockCount }) := by
        simp [GSkipBaseDevice.OSClose, hm, GSkipBaseDevice.lockAndCheck,
          GSkipBaseDevice.UnlockDevice]
      rw [h1]
      refine ⟨rfl, ?_⟩
      simp only [GSkipBaseDevice.OSClose, GSkipBaseDevice.lockAndCheck,
        GSkipBaseDevice.UnlockDevice, if_true, Nat.add_sub_cancel]
      rw [LSkipMgr.Close_snd mgr.Close.2, LSkipMgr.Close_snd mgr]
      rfl

/-- C11 on the open example device: `OSClose` succeeds, and a second `OSClose`
succeeds and changes nothing. -/
theorem C11_Close_idempotent_witness :
    exampleDevice.m_pOSData.isSome = true ∧
      (exampleDevice.OSClose ⟨true, true⟩).1 = kResponse_OK ∧
      (exampleDevice.OSClose ⟨true, true⟩).2.OSClose ⟨true, true⟩ =
        (kResponse_OK, (exampleDevice.OSClose ⟨true, true⟩).2) :=
  ⟨rfl, (C11_Close_idempotent exampleSession exampleDevice).2.2.2.2.2.2.2 rfl⟩

namespace LSkipPacketCircularBuffer

/-- The mutex object after `NumRecsAvailable`: the depth is what it was, and
the depth went one above it during the call. -/
theorem NumRecsAvailable_snd (b : LSkipPacketCircularBuffer) (mtx : OSMutexObj)
    (hb : Bound b) :
    (b.NumRecsAvailable mtx).2 =
      { depth := mtx.depth, peak := max mtx.peak (mtx.depth + 1) } := by
  unfold Bound at hb
  simp [NumRecsAvailable, OSLockMutex, OSUnlockMutex, hb]

theorem Clear_snd (b : LSkipPacketCircularBuffer) (mtx : OSMutexObj) (hb : Bound b) :
    (b.Clear mtx).2 = { depth := mtx.depth, peak := max mtx.peak (mtx.depth + 1) } := by
  unfold Bound at hb
  simp [Clear, OSLockMutex, OSUnlockMutex, hb]

/-- The mutex object after `AddRec`: the call to `NumRecsAvailable` inside the
locked region takes the depth two above its value on entry. -/
theorem AddRec_snd (b : LSkipPacketCircularBuffer) (p : GSkipPacket) (mtx : OSMutexObj)
    (hb : Bound b) :
    (b.AddRec p mtx).2 = { depth := mtx.depth, peak := max mtx.peak (mtx.depth + 2) } := by
  have h := NumRecsAvailable_snd b (OSLockMutex mtx).2 hb
  unfold Bound at hb
  simp only [AddRec, hb, OSLockMutex, ne_eq, not_false_eq_true, if_true] at h ⊢
  rw [h]
  simp only [OSUnlockMutex, Nat.add_sub_cancel, OSMutexObj.mk.injEq, true_and]
  omega

theorem RetrieveRec_snd (b : LSkipPacketCircularBuffer) (mtx : OSMutexObj) (hb : Bound b) :
    (b.RetrieveRec mtx).2.2.2 =
      { depth := mtx.depth, peak := max mtx.peak (mtx.depth + 2) } := by
  have h := NumRecsAvailable_snd b (OSLockMutex mtx).2 hb
  unfold Bound at hb
  simp only [RetrieveRec, hb, OSLockMutex, ne_eq, not_false_eq_true, if_true] at h ⊢
  rw [h]
  split <;>
    · simp only [OSUnlockMutex, Nat.add_sub_cancel, OSMutexObj.mk.injEq, true_and]
      omega

end LSkipPacketCircularBuffer

/-- C12 (as stated): `AddRec` on the measurement buffer of the open example
session, entered with lock depth 0, takes the calling thread's depth on the
queue mutex to 2, so it is not true that the depth never exceeds 1; and
`RetrieveRec` does the same. -/
theorem C12_AddRec_reentrant_counterexample :
    ¬ ((exampleSession.m_pMesBuf.AddRec measurementRead.buf ⟨0, 0⟩).2.peak ≤ 1 ∧
      (exampleSession.m_pMesBuf.RetrieveRec ⟨0, 0⟩).2.2.2.peak ≤ 1) := by
  intro h
  exact absurd h.1 (by decide)

/-- C12 (amended): with the queue mutex modelled by the calling thread's lock
depth, on a mutex-bound buffer `NumRecsAvailable` and `Clear` acquire the mutex
once, so during the call the depth goes exactly one above its value on entry;
`AddRec` and `RetrieveRec` acquire the mutex and call `NumRecsAvailable` while
they hold it, so the depth goes exactly two above its value on entry; after
each of the four calls the depth is back at its value on entry.  Entered with
depth 0, the largest depths are 1, 1, 2 and 2 and the final depth is 0. -/
theorem C12_lock_depth_per_call (b : LSkipPacketCircularBuffer) (hb : Bound b)
    (p : GSkipPacket) (mtx : OSMutexObj) :
    (b.NumRecsAvailable mtx).2 =
        { depth := mtx.depth, peak := max mtx.peak (mtx.depth + 1) } ∧
      (b.Clear mtx).2 = { depth := mtx.depth, peak := max mtx.peak (mtx.depth + 1) } ∧
      (b.AddRec p mtx).2 = { depth := mtx.depth, peak := max mtx.peak (mtx.depth + 2) } ∧
      (b.RetrieveRec mtx).2.2.2 =
        { depth := mtx.depth, peak := max mtx.peak (mtx.depth + 2) } ∧
      (mtx = { depth := 0, peak := 0 } →
        (b.NumRecsAvailable mtx).2 = { depth := 0, peak := 1 } ∧
          (b.Clear mtx).2 = { depth := 0, peak := 1 } ∧
          (b.AddRec p mtx).2 = { depth := 0, peak := 2 } ∧
          (b.RetrieveRec mtx).2.2.2 = { depth := 0, peak := 2 }) := by
  have h1 := NumRecsAvailable_snd b mtx hb
  have h2 := Clear_snd b mtx hb
  have h3 := AddRec_snd b p mtx hb
  have h4 := RetrieveRec_snd b mtx hb
  refine ⟨h1, h2, h3, h4, ?_⟩
  intro hm
  subst hm
  rw [h1, h2, h3, h4]
  exact ⟨rfl, rfl, rfl, rfl⟩

/-- C12 (amended) on a bound buffer of capacity 3 holding one packet, entered
with depth 0. -/
theorem C12_lock_depth_per_call_witness :
    Bound (addAll (fresh 3) ⟨0, 0⟩ [⟨[1]⟩]).1 ∧
      ((addAll (fresh 3) ⟨0, 0⟩ [⟨[1]⟩]).1.NumRecsAvailable ⟨0, 0⟩).2 =
        { depth := 0, peak := 1 } ∧
      ((addAll (fresh 3) ⟨0, 0⟩ [⟨[1]⟩]).1.Clear ⟨0, 0⟩).2 = { depth := 0, peak := 1 } ∧
      ((addAll (fresh 3) ⟨0, 0⟩ [⟨[1]⟩]).1.AddRec ⟨[2]⟩ ⟨0, 0⟩).2 =
        { depth := 0, peak := 2 } ∧
      ((addAll (fresh 3) ⟨0, 0⟩ [⟨[1]⟩]).1.RetrieveRec ⟨0, 0⟩).2.2.2 =
        { depth := 0, peak := 2 } :=
  ⟨Bound_addAll _ _ _ (Bound_fresh 3),
    (C12_lock_depth_per_call (addAll (fresh 3) ⟨0, 0⟩ [⟨[1]⟩]).1
      (Bound_addAll _ _ _ (Bound_fresh 3)) ⟨[2]⟩ ⟨0, 0⟩).2.2.2.2 rfl⟩

namespace GSkipBaseDevice

/-- The device-lock counter after each guarded routine: it is the counter on
entry, plus one exactly when the device has a manager, `LockDevice` succeeded
and `IsOKToUse` answered false. -/
theorem lockCount_after_guarded (d : GSkipBaseDevice) (g : GuardOutcome) (o : OpenOutcome)
    (pBuffer : Nat → GSkipPacket) (n nb : Int) (pkt : GSkipPacket) (w : Int) :
    (d.OSOpen g o).2.lockCount =
        d.lockCount + (if (d.m_pOSData.isSome && g.LockDevice && !g.IsOKToUse) = true
          then 1 else 0) ∧
      (d.OSClose g).2.lockCount =
        d.lockCount + (if (d.m_pOSData.isSome && g.LockDevice && !g.IsOKToUse) = true
          then 1 else 0) ∧
      (d.OSReadMeasurementPackets g pBuffer n nb).dev.lockCount =
        d.lockCount + (if (d.m_pOSData.isSome && g.LockDevice && !g.IsOKToUse) = true
          then 1 else 0) ∧
      (d.OSReadCmdRespPackets g pBuffer n nb).dev.lockCount =
        d.lockCount + (if (d.m_pOSData.isSome && g.LockDevice && !g.IsOKToUse) = true
          then 1 else 0) ∧
      (d.OSWriteCmdPackets g pkt n w).dev.lockCount =
        d.lockCount + (if (d.m_pOSData.isSome && g.LockDevice && !g.IsOKToUse) = true
          then 1 else 0) ∧
      (d.OSMeasurementPacketsAvailable g).2.2.lockCount =
        d.lockCount + (if (d.m_pOSData.isSome && g.LockDevice && !g.IsOKToUse) = true
          then 1 else 0) ∧
      (d.OSCmdRespPacketsAvailable g).2.lockCount =
        d.lockCount + (if (d.m_pOSData.isSome && g.LockDevice && !g.IsOKToUse) = true
          then 1 else 0) ∧
      (d.OSClearMeasurementPacketQueue g).2.lockCount =
        d.lockCount + (if (d.m_pOSData.isSome && g.LockDevice && !g.IsOKToUse) = true
          then 1 else 0) ∧
      (d.OSClearCmdRespPacketQueue g).2.lockCount =
        d.lockCount + (if (d.m_pOSData.isSome && g.LockDevice && !g.IsOKToUse) = true
          then 1 else 0) := by
  obtain ⟨gl, go⟩ := g
  cases hm : d.m_pOSData <;> cases gl <;> cases go <;>
    simp [OSOpen, OSClose, OSReadMeasurementPackets, OSReadCmdRespPackets, OSWriteCmdPackets,
      OSMeasurementPacketsAvailable, OSCmdRespPacketsAvailable, OSClearMeasurementPacketQueue,
      OSClearCmdRespPacketQueue, lockAndCheck, UnlockDevice, hm]

end GSkipBaseDevice

/-- C13 (the lock is left held): on the open example device, whose lock counter
is 0, with `LockDevice(1)` succeeding and `IsOKToUse()` answering false, each of
the nine guarded routines returns with the lock counter at 1: the lock taken by
`LockDevice` is never returned. -/
theorem C13_lock_leaked_when_not_ok_to_use :
    exampleDevice.lockCount = 0 ∧
      (exampleDevice.OSOpen ⟨true, false⟩ exampleOpen).2.lockCount = 1 ∧
      (exampleDevice.OSClose ⟨true, false⟩).2.lockCount = 1 ∧
      (exampleDevice.OSReadMeasurementPackets ⟨true, false⟩ (fun _ => default) 1
        1).dev.lockCount = 1 ∧
      (exampleDevice.OSReadCmdRespPackets ⟨true, false⟩ (fun _ => default) 1
        1).dev.lockCount = 1 ∧
      (exampleDevice.OSWriteCmdPackets ⟨true, false⟩ cmdRespRead.buf 1 8).dev.lockCount = 1 ∧
      (exampleDevice.OSMeasurementPacketsAvailable ⟨true, false⟩).2.2.lockCount = 1 ∧
      (exampleDevice.OSCmdRespPacketsAvailable ⟨true, false⟩).2.lockCount = 1 ∧
      (exampleDevice.OSClearMeasurementPacketQueue ⟨true, false⟩).2.lockCount = 1 ∧
      (exampleDevice.OSClearCmdRespPacketQueue ⟨true, false⟩).2.lockCount = 1 := by
  refine ⟨?_, ?_, ?_, ?_, ?_, ?_, ?_, ?_, ?_, ?_⟩ <;> decide

end GoIO
